import Mathlib

/-!
# dealii-pft: the step-3 and step-8 drivers

A shallow embedding of `step-3/src/main.cpp` and `step-8/src/main.cpp`.

Both drivers are glue around deal.II library calls.  The library is a
parameter of the embedding (`Library`): every call either returns the new
value of the object it works on or throws an exception object.  A run is
observed through its trace of events (values streamed into `pcout`, library
calls with their arguments, thrown exceptions) and through the way `main`
ends (normal return, or an exception leaving `main`).
-/

namespace DealiiPft

/-! ## Exceptions, events and runs -/

/-- Exception objects.  `ExcMessage` is the deal.II exception used by the
drivers themselves; `other` stands for any other exception class thrown by
library code. -/
inductive Exception where
  | ExcMessage (msg : String)
  | other (what : String)
deriving DecidableEq, Repr

/-- Observable events of a run, in program order.  The library calls carry
the values of their arguments at the time of the call. -/
inductive Event (Tria PFT CD DH : Type) where
  | pcout (s : String)
  | subdivided_hyper_cube (tria : Tria) (repetitions : Nat)
  | refine_global (tria : Tria) (times : Nat)
  | partition_triangulation (n_partitions : Nat) (tria : Tria)
  | partition_multigrid_levels (tria : Tria)
  | copy_from_triangulation (tria : Tria) (tria_pft : PFT)
  | reinit (tria_pft : PFT) (construction_data : CD)
  | distribute_dofs (dof_handler : DH) (fe_degree : Nat)
  | distribute_mg_dofs (dof_handler : DH)
  | write_mesh_tria (tria : Tria) (filename_without_extension : String)
      (view_levels include_artificial : Bool)
  | write_mesh_pft (tria : PFT) (filename_without_extension : String)
      (view_levels include_artificial : Bool)
  | raised (e : Exception)
deriving DecidableEq, Repr

/-- Whether the event is a library call (and not an item streamed into `pcout`
or a thrown exception). -/
def Event.isCall {Tria PFT CD DH : Type} : Event Tria PFT CD DH → Bool
  | .pcout _ => false
  | .raised _ => false
  | _ => true

/-- A computation that appends events to the trace and then either returns a
value or leaves by an exception. -/
structure Run (Ev α : Type) where
  trace : List Ev
  result : Except Exception α

namespace Run

variable {Ev α β : Type}

/-- Return without any event. -/
def ret (a : α) : Run Ev α := ⟨[], .ok a⟩

/-- Sequencing: the second computation runs only when the first returned. -/
def seq (x : Run Ev α) (f : α → Run Ev β) : Run Ev β :=
  match x.result with
  | .ok a => ⟨x.trace ++ (f a).trace, (f a).result⟩
  | .error e => ⟨x.trace, .error e⟩

instance : Monad (Run Ev) where
  pure := ret
  bind := seq

end Run

/-! ## The library the drivers call -/

/-- The deal.II calls made by the drivers.  `Tria` is the state of a
`dealii::Triangulation<dim>` (serial or `parallel::distributed`), `PFT` the
state of a `parallel::fullydistributed::Triangulation<dim>`, `CD` the
construction data and `DH` the state of a `DoFHandler<dim>`.  A call that
modifies its object in place returns the object's new state. -/
structure Library (Tria PFT CD DH : Type) where
  /-- The value of `Utilities::MPI::n_mpi_processes(comm)`. -/
  n_mpi_processes : Nat
  /-- The value of `Utilities::MPI::this_mpi_process(comm)`. -/
  this_mpi_process : Nat
  /-- The function `atoi` of the C library. -/
  atoi : String → Int
  /-- The object `Triangulation<dim>(Triangulation<dim>::limit_level_difference_at_vertices)`. -/
  new_Triangulation : Nat → Tria
  /-- The object
  `parallel::distributed::Triangulation<dim>(comm, none, construct_multigrid_hierarchy)`. -/
  new_distributed_Triangulation : Nat → Tria
  /-- The object
  `parallel::fullydistributed::Triangulation<dim>(comm, construct_multigrid_hierarchy)`. -/
  new_fullydistributed_Triangulation : Nat → PFT
  /-- The object `DoFHandler<dim>(tria_pft)`. -/
  new_DoFHandler : PFT → DH
  subdivided_hyper_cube : Tria → Nat → Except Exception Tria
  refine_global : Tria → Nat → Except Exception Tria
  partition_triangulation : Nat → Tria → Except Exception Tria
  partition_multigrid_levels : Tria → Except Exception Tria
  copy_from_triangulation : Tria → PFT → Except Exception CD
  reinit : PFT → CD → Except Exception PFT
  distribute_dofs : DH → Nat → Except Exception DH
  distribute_mg_dofs : DH → Except Exception DH
  write_mesh_tria : Tria → String → Bool → Bool → Except Exception Unit
  write_mesh_pft : PFT → String → Bool → Bool → Except Exception Unit

section Primitives

variable {Tria PFT CD DH : Type} {α : Type}

/-- One library call: the call is recorded, and when the library throws, the
exception is recorded and propagates. -/
def call (ev : Event Tria PFT CD DH) (r : Except Exception α) :
    Run (Event Tria PFT CD DH) α :=
  match r with
  | .ok a => ⟨[ev], .ok a⟩
  | .error e => ⟨[ev, .raised e], .error e⟩

/-- Throw statement: the exception object is thrown. -/
def throwExc (e : Exception) : Run (Event Tria PFT CD DH) α :=
  ⟨[.raised e], .error e⟩

/-- The deal.II `AssertThrow(cond, exc)`: throws `exc` when `cond` is false
(in debug and in release mode). -/
def AssertThrow (cond : Bool) (exc : Exception) : Run (Event Tria PFT CD DH) Unit :=
  if cond then Run.ret () else throwExc exc

/-- The statement `pcout << s`. -/
def pcout (s : String) : Run (Event Tria PFT CD DH) Unit :=
  ⟨[.pcout s], .ok ()⟩

/-- The block `try { body } catch(...) { handler }`. -/
def tryCatchAll (body handler : Run (Event Tria PFT CD DH) Unit) :
    Run (Event Tria PFT CD DH) Unit :=
  match body.result with
  | .ok _ => body
  | .error _ => ⟨body.trace ++ handler.trace, handler.result⟩

end Primitives

/-- Conversion of an `int` argument to an `unsigned int` parameter. -/
def toUnsigned (i : Int) : Nat := (i % 4294967296).toNat

/-- The effect of `std::setw(w)` on the next item: padding on the left with
blanks up to width `w` (default fill and adjustment). -/
def setw (w : Nat) (s : String) : String :=
  String.mk (List.replicate (w - s.length) ' ') ++ s

/-- Text of `std::endl`. -/
def endl : String := "\n"

/-- The items streamed into `pcout` during a run, in order. -/
def pcoutItems {Tria PFT CD DH : Type} (trace : List (Event Tria PFT CD DH)) : List String :=
  trace.filterMap fun ev =>
    match ev with
    | .pcout s => some s
    | _ => none

/-- What reaches `std::cout`: `pcout` is a `ConditionalOStream` that is active
on the process of rank 0 only. -/
def stdout {Tria PFT CD DH : Type} (lib : Library Tria PFT CD DH)
    (trace : List (Event Tria PFT CD DH)) : String :=
  if lib.this_mpi_process = 0 then String.join (pcoutItems trace) else ""

/-- Characters that a number printed with `setw` is made of: digits, the
minus sign and the fill character. -/
def numChar (c : Char) : Bool := c.isDigit || c == '-' || c == ' '

/-- The items of the run header, `title` being `"Run step-3:"` or
`"Run step-8: "`: the parameters p, d, r and s, each printed with `setw(2)`. -/
def header (title : String) (p : Nat) (d r s : Int) : List String :=
  [title, " p=", setw 2 (toString p), " d=", setw 2 (toString d),
   " r=", setw 2 (toString r), " s=", setw 2 (toString s), ":"]

/-! ## step-3 -/

namespace Step3

variable {Tria PFT CD DH : Type}

/-- The function template `test<dim>` of step-3. -/
def test (lib : Library Tria PFT CD DH) (dim : Nat) (n_refinements : Int)
    (n_subdivisions : Int) : Run (Event Tria PFT CD DH) Unit := do
  -- create pdt
  let basetria := lib.new_Triangulation dim
  let basetria ← call (.subdivided_hyper_cube basetria (toUnsigned n_subdivisions))
    (lib.subdivided_hyper_cube basetria (toUnsigned n_subdivisions))
  let basetria ← call (.refine_global basetria (toUnsigned n_refinements))
    (lib.refine_global basetria (toUnsigned n_refinements))
  let basetria ← call (.partition_triangulation lib.n_mpi_processes basetria)
    (lib.partition_triangulation lib.n_mpi_processes basetria)
  let basetria ← call (.partition_multigrid_levels basetria)
    (lib.partition_multigrid_levels basetria)
  -- create instance of pft
  let tria_pft := lib.new_fullydistributed_Triangulation dim
  -- extract relevant information form serial triangulation
  let construction_data ← call (.copy_from_triangulation basetria tria_pft)
    (lib.copy_from_triangulation basetria tria_pft)
  -- actually create triangulation
  let tria_pft ← call (.reinit tria_pft construction_data)
    (lib.reinit tria_pft construction_data)
  -- test triangulation
  let fe := 2
  let dof_handler := lib.new_DoFHandler tria_pft
  let dof_handler ← call (.distribute_dofs dof_handler fe)
    (lib.distribute_dofs dof_handler fe)
  let _ ← call (.distribute_mg_dofs dof_handler) (lib.distribute_mg_dofs dof_handler)
  -- output meshes as VTU
  call (.write_mesh_tria basetria "trid_pdt" true true)
    (lib.write_mesh_tria basetria "trid_pdt" true true)
  call (.write_mesh_pft tria_pft "trid_pft" true true)
    (lib.write_mesh_pft tria_pft "trid_pft" true true)

/-- The body of the `try` block of `main`. -/
def try_block (lib : Library Tria PFT CD DH) (dim n_refinements n_subdivisions : Int) :
    Run (Event Tria PFT CD DH) Unit := do
  pcout "Run step-3:"
  pcout " p="
  pcout (setw 2 (toString lib.n_mpi_processes))
  pcout " d="
  pcout (setw 2 (toString dim))
  pcout " r="
  pcout (setw 2 (toString n_refinements))
  pcout " s="
  pcout (setw 2 (toString n_subdivisions))
  pcout ":"
  if dim = 1 then
    test lib 1 n_refinements n_subdivisions
  else if dim = 2 then
    test lib 2 n_refinements n_subdivisions
  else if dim = 3 then
    test lib 3 n_refinements n_subdivisions
  else
    AssertThrow false (.ExcMessage "Only working for dimensions 2 and 3!")
  pcout " success...."
  pcout endl

/-- The handler of `catch(...)` in `main`. -/
def catch_block : Run (Event Tria PFT CD DH) Unit := do
  pcout " failed...."
  pcout endl

/-- The function `main`; `argv` holds the program name and the positional
arguments, `argc` is its length.  The result `.ok 0` is the normal return of
`main`; `.error e` means the exception `e` left `main` uncaught.  The object
`MPI_InitFinalize mpi(argc, argv, 1)` only starts and ends MPI; MPI is taken
to be up, with the process count and rank the library reports. -/
def main (lib : Library Tria PFT CD DH) (argv : List String) :
    Run (Event Tria PFT CD DH) Int := do
  let argc := argv.length
  AssertThrow (decide (argc > 3))
    (.ExcMessage "You have not provided two command-line arguments.")
  let dim := lib.atoi (argv.getD 1 "")
  let n_refinements := lib.atoi (argv.getD 2 "")
  let n_subdivisions := lib.atoi (argv.getD 3 "")
  tryCatchAll (try_block lib dim n_refinements n_subdivisions) catch_block
  return 0

end Step3

/-! ## step-8 -/

namespace Step8

variable {Tria PFT CD DH : Type}

/-- The function template `test<dim>` of step-8. -/
def test (lib : Library Tria PFT CD DH) (dim : Nat) (n_refinements : Int)
    (n_subdivisions : Int) : Run (Event Tria PFT CD DH) Unit := do
  -- create pdt
  let tria_pdt := lib.new_distributed_Triangulation dim
  let tria_pdt ← call (.subdivided_hyper_cube tria_pdt (toUnsigned n_subdivisions))
    (lib.subdivided_hyper_cube tria_pdt (toUnsigned n_subdivisions))
  let tria_pdt ← call (.refine_global tria_pdt (toUnsigned n_refinements))
    (lib.refine_global tria_pdt (toUnsigned n_refinements))
  -- create instance of pft
  let tria_pft := lib.new_fullydistributed_Triangulation dim
  -- extract relevant information form pdt
  let construction_data ← call (.copy_from_triangulation tria_pdt tria_pft)
    (lib.copy_from_triangulation tria_pdt tria_pft)
  -- actually create triangulation
  let tria_pft ← call (.reinit tria_pft construction_data)
    (lib.reinit tria_pft construction_data)
  -- test triangulation
  let fe := 2
  let dof_handler := lib.new_DoFHandler tria_pft
  let dof_handler ← call (.distribute_dofs dof_handler fe)
    (lib.distribute_dofs dof_handler fe)
  let _ ← call (.distribute_mg_dofs dof_handler) (lib.distribute_mg_dofs dof_handler)
  -- output meshes as VTU
  call (.write_mesh_tria tria_pdt "trid_pdt" true true)
    (lib.write_mesh_tria tria_pdt "trid_pdt" true true)
  call (.write_mesh_pft tria_pft "trid_pft" true true)
    (lib.write_mesh_pft tria_pft "trid_pft" true true)

/-- The body of the `try` block of `main`. -/
def try_block (lib : Library Tria PFT CD DH) (dim n_refinements n_subdivisions : Int) :
    Run (Event Tria PFT CD DH) Unit := do
  pcout "Run step-8: "
  pcout " p="
  pcout (setw 2 (toString lib.n_mpi_processes))
  pcout " d="
  pcout (setw 2 (toString dim))
  pcout " r="
  pcout (setw 2 (toString n_refinements))
  pcout " s="
  pcout (setw 2 (toString n_subdivisions))
  pcout ":"
  if dim = 2 then
    test lib 2 n_refinements n_subdivisions
  else if dim = 3 then
    test lib 3 n_refinements n_subdivisions
  else
    AssertThrow false (.ExcMessage "Only working for dimensions 2 and 3!")
  pcout " success...."
  pcout endl

/-- The handler of `catch(...)` in `main`. -/
def catch_block : Run (Event Tria PFT CD DH) Unit := do
  pcout " failed...."
  pcout endl

/-- The function `main`, as in step-3. -/
def main (lib : Library Tria PFT CD DH) (argv : List String) :
    Run (Event Tria PFT CD DH) Int := do
  let argc := argv.length
  AssertThrow (decide (argc > 3))
    (.ExcMessage "You have not provided two command-line arguments.")
  let dim := lib.atoi (argv.getD 1 "")
  let n_refinements := lib.atoi (argv.getD 2 "")
  let n_subdivisions := lib.atoi (argv.getD 3 "")
  tryCatchAll (try_block lib dim n_refinements n_subdivisions) catch_block
  return 0

end Step8

/-! ## A concrete library, to run the drivers on examples -/

/-- Decimal digits at the head of a character list, accumulated into `acc`. -/
def atoiDigits : List Char → Nat → Nat
  | [], acc => acc
  | c :: cs, acc => if c.isDigit then atoiDigits cs (acc * 10 + (c.toNat - 48)) else acc

/-- The C function `atoi` on inputs whose value fits an `int`: leading blanks,
an optional sign, then the decimal digits up to the first other character. -/
def atoi (s : String) : Int :=
  match s.data.dropWhile (fun c => c == ' ') with
  | '-' :: cs => - (atoiDigits cs 0 : Int)
  | '+' :: cs => (atoiDigits cs 0 : Int)
  | cs => (atoiDigits cs 0 : Int)

/-- A library over lists of numbers that records in every object the calls
made on it.  The stage numbered `failing` (1 = `subdivided_hyper_cube`, ...,
10 = writing the rebuilt mesh) throws; with `failing = 0` every stage returns.
`np` is the number of processes and `rank` the rank of this process. -/
def sampleLibrary (failing np rank : Nat) :
    Library (List Nat) (List Nat) (List Nat) (List Nat) where
  n_mpi_processes := np
  this_mpi_process := rank
  atoi := atoi
  new_Triangulation := fun dim => [0, dim]
  new_distributed_Triangulation := fun dim => [1, dim]
  new_fullydistributed_Triangulation := fun dim => [2, dim]
  new_DoFHandler := fun tria => 3 :: tria
  subdivided_hyper_cube := fun tria n =>
    if failing = 1 then .error (.other "subdivided_hyper_cube") else .ok (tria ++ [10, n])
  refine_global := fun tria n =>
    if failing = 2 then .error (.other "refine_global") else .ok (tria ++ [20, n])
  partition_triangulation := fun n tria =>
    if failing = 3 then .error (.other "partition_triangulation") else .ok (tria ++ [30, n])
  partition_multigrid_levels := fun tria =>
    if failing = 4 then .error (.other "partition_multigrid_levels") else .ok (tria ++ [40])
  copy_from_triangulation := fun tria tria_pft =>
    if failing = 5 then .error (.other "copy_from_triangulation") else .ok (50 :: (tria ++ tria_pft))
  reinit := fun tria_pft cd =>
    if failing = 6 then .error (.other "reinit") else .ok (60 :: (tria_pft ++ cd))
  distribute_dofs := fun dh degree =>
    if failing = 7 then .error (.other "distribute_dofs") else .ok (dh ++ [70, degree])
  distribute_mg_dofs := fun dh =>
    if failing = 8 then .error (.other "distribute_mg_dofs") else .ok (dh ++ [80])
  write_mesh_tria := fun _ _ _ _ =>
    if failing = 9 then .error (.other "write_mesh_per_processor_as_vtu") else .ok ()
  write_mesh_pft := fun _ _ _ _ =>
    if failing = 10 then .error (.other "write_mesh_per_processor_as_vtu") else .ok ()

/-! ## The extractor and the builder

`copy_from_triangulation` and `reinit` are declared in
`deal.II/distributed/tria_util.h` and `deal.II/distributed/tria.h`, which the
drivers include; their code is not among the source files.  They are modelled
here from the design specification (data model of section 3, components of
section 4).  Coordinates are only copied and compared, never computed with.
-/

namespace Core

/-- Modelled from the spec: a coordinate tuple of the VertexTable (the mesh
data model is missing from the sources). -/
abbrev Coord := List Int

/-- Modelled from the spec: the error taxonomy of section 7 (the core's error
classes are missing from the sources). -/
inductive CoreError where
  | InconsistentPartitionError
  | EmptyPartitionError
  | IncompleteHaloError
deriving DecidableEq, Repr

/-- Modelled from the spec: a Cell of the data model (missing from the
sources): stable index, geometric shape reference, vertices by index into the
vertex table, owning rank under the Partition of its level, refinement level,
and parent reference for a cell that is not at the coarsest level. -/
structure Cell where
  index : Nat
  shape : Nat
  vertices : List Nat
  owner : Nat
  level : Nat
  parent : Option Nat
deriving DecidableEq, Repr

/-- Modelled from the spec: the GlobalMesh, the full set of cells with the
VertexTable mapping a vertex index to its coordinate tuple (missing from the
sources). -/
structure GlobalMesh where
  cells : List Cell
  vertices : List Coord
deriving DecidableEq, Repr

/-- Modelled from the spec: how a rank holds a cell (missing from the
sources): locally owned, ghost, or artifact, a non-owned ancestor kept only
for traversal. -/
inductive Tag where
  | owned
  | ghost
  | artifact
deriving DecidableEq, Repr

/-- Modelled from the spec: a cell record of the ConstructionData (missing
from the sources): the cell with its connectivity given by indices into the
per-rank vertex table, and its ownership tag. -/
structure CellData where
  index : Nat
  shape : Nat
  connectivity : List Nat
  owner : Nat
  tag : Tag
  level : Nat
  parent : Option Nat
deriving DecidableEq, Repr

/-- Modelled from the spec: the ConstructionData of one rank (missing from
the sources): the collected cells and the compact per-rank VertexTable. -/
structure ConstructionData where
  cells : List CellData
  vertices : List Coord
deriving DecidableEq, Repr

/-- Modelled from the spec: a cell of the LocalMesh (missing from the
sources): the record of the construction data, linked to its children and to
its geometric neighbours on its level (both by stable index). -/
structure LocalCell where
  index : Nat
  shape : Nat
  vertices : List Nat
  owner : Nat
  tag : Tag
  level : Nat
  parent : Option Nat
  children : List Nat
  neighbors : List Nat
deriving DecidableEq, Repr

/-- Modelled from the spec: the LocalMesh of one rank, output of the Builder
(missing from the sources): the rank, the vertex table restricted to what is
referenced, and the cells of all levels. -/
structure LocalMesh where
  rank : Nat
  vertices : List Coord
  cells : List LocalCell
deriving DecidableEq, Repr

/-- Modelled from the spec: two cells share at least one vertex (the halo
criterion of the Extractor, step 2; missing from the sources). -/
def Cell.sharesVertex (a b : Cell) : Bool :=
  a.vertices.any fun v => b.vertices.contains v

/-- Modelled from the spec: the fine level, the finest refinement level of the
mesh (missing from the sources). -/
def GlobalMesh.fineLevel (m : GlobalMesh) : Nat :=
  (m.cells.map Cell.level).foldr max 0

/-- Modelled from the spec: the cells of level `L` owned by rank `R`
(Extractor, step 1; missing from the sources). -/
def ownedAt (m : GlobalMesh) (R L : Nat) : List Cell :=
  m.cells.filter fun c => c.level == L && c.owner == R

/-- Modelled from the spec: the one-layer ghost halo (Extractor, step 2;
missing from the sources): a cell not owned by `R` that shares at least one
vertex with a cell of its level owned by `R`. -/
def inHalo (m : GlobalMesh) (R : Nat) (c : Cell) : Bool :=
  c.owner != R && (ownedAt m R c.level).any fun o => o.sharesVertex c

/-- Modelled from the spec: the cells collected for rank `R` on the level
`d` below the level `top` (Extractor, steps 1 to 3; missing from the
sources): the owned cells and their halo, and below the fine level also every
parent of a cell collected one level finer. -/
def collectAt (m : GlobalMesh) (R top : Nat) : Nat → List Cell
  | 0 => m.cells.filter fun c => c.level == top && (c.owner == R || inHalo m R c)
  | d + 1 => m.cells.filter fun c => c.level + (d + 1) == top &&
      (c.owner == R || inHalo m R c ||
        (collectAt m R top d).any fun f => f.parent == some c.index)

/-- Modelled from the spec: all cells collected for rank `R`, from the fine
level down to the coarsest (missing from the sources). -/
def collected (m : GlobalMesh) (R : Nat) : List Cell :=
  (List.range (m.fineLevel + 1)).flatMap (collectAt m R m.fineLevel)

/-- Modelled from the spec: the ownership tag of a collected cell (missing
from the sources): owned, else ghost when in the halo, else a non-owned
placeholder. -/
def tagOf (m : GlobalMesh) (R : Nat) (c : Cell) : Tag :=
  if c.owner == R then .owned else if inHalo m R c then .ghost else .artifact

/-- Modelled from the spec: the hierarchy of a rank is closed under ancestors
(Extractor, step 3; missing from the sources): every cell above the coarsest
level has its parent, one level coarser, among the cells. -/
def ancestorClosed (cs : List Cell) : Bool :=
  cs.all fun c => c.level == 0 ||
    cs.any fun p => c.parent == some p.index && p.level + 1 == c.level

/-- Modelled from the spec: the vertices referenced by the collected cells,
without repetition (Extractor, step 4; missing from the sources). -/
def referenced (cs : List Cell) : List Nat :=
  (cs.flatMap Cell.vertices).dedup

/-- Modelled from the spec: the record of a collected cell in the
construction data (Extractor, steps 4 and 5; missing from the sources); `refs`
lists the referenced vertices in the order of the per-rank table. -/
def toCellData (m : GlobalMesh) (R : Nat) (refs : List Nat) (c : Cell) : CellData :=
  { index := c.index, shape := c.shape,
    connectivity := c.vertices.map fun v => refs.indexOf v,
    owner := c.owner, tag := tagOf m R c, level := c.level, parent := c.parent }

/-- Modelled from the spec: the construction data packaged for rank `R`
(Extractor, steps 4 and 5; missing from the sources): the records of the
collected cells and the coordinates of the referenced vertices. -/
def constructionData (m : GlobalMesh) (R : Nat) : ConstructionData :=
  { cells := (collected m R).map (toCellData m R (referenced (collected m R))),
    vertices := (referenced (collected m R)).map fun v => m.vertices.getD v [] }

/-- Modelled from the spec: the Construction Data Extractor of section 4.1,
for the rank `rank` among `n_ranks` (the code of `copy_from_triangulation` is
missing from the sources).  It fails with `InconsistentPartitionError` when an
owner is not a rank or the collected cells are not closed under ancestors,
and with `EmptyPartitionError` when the rank owns no cell of the fine level. -/
def copy_from_triangulation (m : GlobalMesh) (n_ranks rank : Nat) :
    Except CoreError ConstructionData :=
  if !(m.cells.all fun c => decide (c.owner < n_ranks)) then
    .error .InconsistentPartitionError
  else if (ownedAt m rank m.fineLevel).isEmpty then
    .error .EmptyPartitionError
  else if !(ancestorClosed (collected m rank)) then
    .error .InconsistentPartitionError
  else
    .ok (constructionData m rank)

/-- Modelled from the spec: the cell the Builder instantiates from a record
of the construction data (section 4.2; missing from the sources): children
are the records whose parent it is, neighbours the other records of its level
that share a vertex of the local table with it. -/
def toLocalCell (cd : ConstructionData) (c : CellData) : LocalCell :=
  { index := c.index, shape := c.shape, vertices := c.connectivity, owner := c.owner,
    tag := c.tag, level := c.level, parent := c.parent,
    children := (cd.cells.filter fun d => d.parent == some c.index).map CellData.index,
    neighbors := (cd.cells.filter fun d => d.level == c.level && d.index != c.index &&
      c.connectivity.any fun v => d.connectivity.contains v).map CellData.index }

/-- Modelled from the spec: the cell of a local mesh with a given stable
index (missing from the sources). -/
def LocalMesh.find (lm : LocalMesh) (index : Nat) : Option LocalCell :=
  lm.cells.find? fun c => c.index == index

/-- Modelled from the spec: the validation at the end of the Builder
(section 4.2; missing from the sources): every neighbour of an owned cell is
present as owned or ghost. -/
def haloComplete (lm : LocalMesh) : Bool :=
  lm.cells.all fun c => c.tag != .owned ||
    c.neighbors.all fun i =>
      match lm.find i with
      | some nb => nb.tag != .artifact
      | none => false

/-- Modelled from the spec: the mesh the Builder assembles from one rank's
construction data (section 4.2; missing from the sources): the vertex table
is taken verbatim and every record is instantiated. -/
def assemble (cd : ConstructionData) (rank : Nat) : LocalMesh :=
  { rank := rank, vertices := cd.vertices, cells := cd.cells.map (toLocalCell cd) }

/-- Modelled from the spec: the Triangulation Builder of section 4.2 (the
code of `reinit` is missing from the sources): a function of one rank's
construction data and the rank; the build fails with `IncompleteHaloError`
when the validation of the assembled mesh fails. -/
def reinit (cd : ConstructionData) (rank : Nat) : Except CoreError LocalMesh :=
  if haloComplete (assemble cd rank) then .ok (assemble cd rank)
  else .error .IncompleteHaloError

/-- Modelled from the spec: the DoF Distributor as a correctness oracle
(sections 2, 6 and 7; an external collaborator, missing from the sources).
The spec fixes only when it fails: on a mesh without owned cells and on a
mesh built inconsistently, that is with a neighbour of an owned cell not
present as owned or ghost.  The absence of an error is the success signal;
the layout itself is not modelled. -/
def distribute_dofs (lm : LocalMesh) (_element_degree : Nat) : Except CoreError Unit :=
  if (lm.cells.filter fun c => c.tag == .owned).isEmpty then .error .EmptyPartitionError
  else if !(haloComplete lm) then .error .IncompleteHaloError
  else .ok ()

/-! ### What is compared across ranks -/

/-- Modelled from the spec: the vertex coordinates of a cell of a local
mesh, in the order of its connectivity, each local index resolved through
the vertex table of that mesh (missing from the sources). -/
def LocalMesh.coordinates (lm : LocalMesh) (c : LocalCell) : List (Option Coord) :=
  c.vertices.map fun i => lm.vertices.get? i

/-- Modelled from the spec: the stable indices of the ancestors of a cell,
found by following the parent references inside the local mesh for at most
`steps` levels (missing from the sources). -/
def LocalMesh.ancestors (lm : LocalMesh) : Nat → LocalCell → List Nat
  | 0, _ => []
  | steps + 1, c =>
    match c.parent with
    | none => []
    | some p =>
      match lm.find p with
      | none => [p]
      | some pc => p :: lm.ancestors steps pc

/-- Modelled from the spec: the parent chain of a cell of a local mesh, up to
the coarsest level (missing from the sources). -/
def LocalMesh.parentChain (lm : LocalMesh) (c : LocalCell) : List Nat :=
  lm.ancestors c.level c

/-- Modelled from the spec: the cell of the global mesh with a given stable
index (missing from the sources). -/
def GlobalMesh.find (m : GlobalMesh) (index : Nat) : Option Cell :=
  m.cells.find? fun c => c.index == index

/-- Modelled from the spec: the stable indices of the ancestors of a cell in
the global mesh, for at most `steps` levels (missing from the sources). -/
def GlobalMesh.ancestors (m : GlobalMesh) : Nat → Cell → List Nat
  | 0, _ => []
  | steps + 1, c =>
    match c.parent with
    | none => []
    | some p =>
      match m.find p with
      | none => [p]
      | some pc => p :: m.ancestors steps pc

/-- Modelled from the spec: the cell that stands for the collected cell `g`
in the mesh rank `R` builds from its construction data (missing from the
sources). -/
def localOf (m : GlobalMesh) (R : Nat) (g : Cell) : LocalCell :=
  toLocalCell (constructionData m R) (toCellData m R (referenced (collected m R)) g)

/-- Modelled from the spec: the invariants of the mesh data model (section 3;
missing from the sources): the stable index identifies the cell, and the
parent of a cell, if present, is a cell one level coarser; a cell above the
coarsest level has a parent. -/
def GlobalMesh.WellFormed (m : GlobalMesh) : Prop :=
  (m.cells.map Cell.index).Nodup ∧
  ∀ c ∈ m.cells, (c.level = 0 ∧ c.parent = none) ∨
    ∃ p ∈ m.cells, c.parent = some p.index ∧ p.level + 1 = c.level

/-- Modelled from the spec: a valid partition of a well-formed mesh over
`n_ranks` ranks (sections 3 and 4.1; missing from the sources): every owner
is a rank, and every rank owns a cell of the fine level. -/
def ValidPartition (m : GlobalMesh) (n_ranks : Nat) : Prop :=
  m.WellFormed ∧ (∀ c ∈ m.cells, c.owner < n_ranks) ∧
  ∀ R, R < n_ranks → ∃ c ∈ m.cells, c.level = m.fineLevel ∧ c.owner = R

/-- A line of three coarse cells refined once, on two ranks: rank 0 owns the
coarse level and the three fine cells on the left, rank 1 the three fine
cells on the right. -/
def sampleMesh : GlobalMesh where
  cells :=
    [⟨0, 1, [0, 1], 0, 0, none⟩, ⟨1, 1, [1, 2], 0, 0, none⟩, ⟨2, 1, [2, 3], 0, 0, none⟩,
     ⟨3, 1, [0, 4], 0, 1, some 0⟩, ⟨4, 1, [4, 1], 0, 1, some 0⟩,
     ⟨5, 1, [1, 5], 0, 1, some 1⟩, ⟨6, 1, [5, 2], 1, 1, some 1⟩,
     ⟨7, 1, [2, 6], 1, 1, some 2⟩, ⟨8, 1, [6, 3], 1, 1, some 2⟩]
  vertices := [[0], [4], [8], [12], [2], [6], [10]]

end Core

/-! ## Runs: how traces and results compose -/

section RunLemmas

variable {Tria PFT CD DH : Type} {Ev α β : Type}

theorem Run.trace_seq (x : Run Ev α) (f : α → Run Ev β) :
    (x >>= f).trace = x.trace ++ (match x.result with
      | .ok a => (f a).trace
      | .error _ => []) := by
  show (Run.seq x f).trace = _
  unfold Run.seq
  cases x.result <;> simp

theorem Run.result_seq (x : Run Ev α) (f : α → Run Ev β) :
    (x >>= f).result = (match x.result with
      | .ok a => (f a).result
      | .error e => .error e) := by
  show (Run.seq x f).result = _
  unfold Run.seq
  cases x.result <;> simp

theorem Run.mem_trace_seq {x : Run Ev α} {f : α → Run Ev β} {ev : Ev} :
    ev ∈ (x >>= f).trace ↔ ev ∈ x.trace ∨ ∃ a, x.result = .ok a ∧ ev ∈ (f a).trace := by
  rw [Run.trace_seq]
  cases x.result <;> simp

theorem Run.result_seq_ok {x : Run Ev α} {f : α → Run Ev β} {b : β} :
    (x >>= f).result = .ok b ↔ ∃ a, x.result = .ok a ∧ (f a).result = .ok b := by
  rw [Run.result_seq]
  cases x.result <;> simp

theorem Run.result_seq_error {x : Run Ev α} {f : α → Run Ev β} {e : Exception} :
    (x >>= f).result = .error e ↔
      x.result = .error e ∨ ∃ a, x.result = .ok a ∧ (f a).result = .error e := by
  rw [Run.result_seq]
  cases x.result <;> simp

theorem Run.eq_of_trace_result {x y : Run Ev α} (ht : x.trace = y.trace)
    (hr : x.result = y.result) : x = y := by
  cases x; cases y; simp_all

theorem call_result (ev : Event Tria PFT CD DH) (r : Except Exception α) :
    (call ev r).result = r := by
  cases r <;> rfl

theorem mem_trace_call {ev ev' : Event Tria PFT CD DH} {r : Except Exception α} :
    ev' ∈ (call ev r).trace ↔ ev' = ev ∨ ∃ e, r = .error e ∧ ev' = .raised e := by
  cases r <;> simp [call]

theorem call_seq_trace_of_ok (ev : Event Tria PFT CD DH) {r : Except Exception α} {a : α}
    (h : r = .ok a) (f : α → Run (Event Tria PFT CD DH) β) :
    (call ev r >>= f).trace = ev :: (f a).trace := by
  subst h; simp [Run.trace_seq, call]

theorem call_trace_of_ok (ev : Event Tria PFT CD DH) {r : Except Exception α} {a : α}
    (h : r = .ok a) : (call ev r).trace = [ev] := by
  subst h; rfl

theorem pcout_seq_trace (s : String) (f : Unit → Run (Event Tria PFT CD DH) β) :
    (pcout s >>= f).trace = Event.pcout s :: (f ()).trace := by
  simp [Run.trace_seq, pcout]

theorem pcout_seq_result (s : String) (f : Unit → Run (Event Tria PFT CD DH) β) :
    (pcout s >>= f).result = (f ()).result := by
  simp [Run.result_seq, pcout]

theorem tryCatchAll_trace (body handler : Run (Event Tria PFT CD DH) Unit) :
    (tryCatchAll body handler).trace = body.trace ++ (match body.result with
      | .ok _ => []
      | .error _ => handler.trace) := by
  unfold tryCatchAll
  cases body.result <;> simp

theorem tryCatchAll_result (body handler : Run (Event Tria PFT CD DH) Unit) :
    (tryCatchAll body handler).result = (match body.result with
      | .ok a => .ok a
      | .error _ => handler.result) := by
  unfold tryCatchAll
  cases h : body.result <;> simp [h]

end RunLemmas

/-! ## Printed numbers -/

theorem digitChar_isDigit (n : Nat) (h : n < 10) : (Nat.digitChar n).isDigit = true := by
  interval_cases n <;> decide

theorem toDigitsCore_isDigit (f : Nat) : ∀ (n : Nat) (ds : List Char),
    (∀ c ∈ ds, c.isDigit = true) → ∀ c ∈ Nat.toDigitsCore 10 f n ds, c.isDigit = true := by
  induction f with
  | zero => intro n ds h; simpa [Nat.toDigitsCore] using h
  | succ f ih =>
    intro n ds h
    simp only [Nat.toDigitsCore]
    have hd : (Nat.digitChar (n % 10)).isDigit = true :=
      digitChar_isDigit _ (Nat.mod_lt _ (by decide))
    have h2 : ∀ c ∈ Nat.digitChar (n % 10) :: ds, c.isDigit = true := by
      intro c hc
      rcases List.mem_cons.1 hc with rfl | hc
      · exact hd
      · exact h c hc
    split
    · exact h2
    · exact ih _ _ h2

theorem toString_nat_isDigit (n : Nat) : ∀ c ∈ (toString n).data, c.isDigit = true := by
  show ∀ c ∈ (Nat.repr n).data, c.isDigit = true
  simp only [Nat.repr, List.asString, Nat.toDigits]
  exact toDigitsCore_isDigit _ _ _ (by simp)

theorem toString_nat_numChar (n : Nat) : ∀ c ∈ (toString n).data, numChar c = true := by
  intro c hc
  simp [numChar, toString_nat_isDigit n c hc]

theorem toString_int_numChar (i : Int) : ∀ c ∈ (toString i).data, numChar c = true := by
  intro c hc
  cases i with
  | ofNat n =>
    have : c ∈ (toString n).data := hc
    simp [numChar, toString_nat_isDigit n c this]
  | negSucc n =>
    have : c ∈ ("-" ++ toString (n + 1)).data := hc
    simp only [String.data_append, List.mem_append] at this
    rcases this with h | h
    · have : c = '-' := by simpa using h
      subst this; decide
    · simp [numChar, toString_nat_isDigit _ c h]

theorem setw_numChar (w : Nat) (s : String) (h : ∀ c ∈ s.data, numChar c = true) :
    ∀ c ∈ (setw w s).data, numChar c = true := by
  intro c hc
  simp only [setw, String.data_append, List.mem_append] at hc
  rcases hc with hc | hc
  · have : c = ' ' := (List.mem_replicate.1 hc).2
    subst this; decide
  · exact h c hc

/-- A printed number is not one of the two status items. -/
theorem setw_ne_status (w : Nat) (s : String) (h : ∀ c ∈ s.data, numChar c = true) :
    setw w s ≠ " success...." ∧ setw w s ≠ " failed...." := by
  constructor
  · intro heq
    have := setw_numChar w s h 's' (by rw [heq]; decide)
    exact absurd this (by decide)
  · intro heq
    have := setw_numChar w s h 'f' (by rw [heq]; decide)
    exact absurd this (by decide)

/-- No item of a run header is a status item. -/
theorem header_no_status (title : String) (p : Nat) (d r s : Int)
    (ht : title ≠ " success...." ∧ title ≠ " failed....") :
    " success...." ∉ header title p d r s ∧ " failed...." ∉ header title p d r s := by
  have hp := setw_ne_status 2 _ (toString_nat_numChar p)
  have hd := setw_ne_status 2 _ (toString_int_numChar d)
  have hr := setw_ne_status 2 _ (toString_int_numChar r)
  have hs := setw_ne_status 2 _ (toString_int_numChar s)
  simp only [header, List.mem_cons, List.mem_singleton, not_or, List.not_mem_nil, or_false]
  refine ⟨⟨ht.1.symm, by decide, hp.1.symm, by decide, hd.1.symm, by decide, hr.1.symm,
    by decide, hs.1.symm, by decide⟩, ⟨ht.2.symm, by decide, hp.2.symm, by decide, hd.2.symm,
    by decide, hr.2.symm, by decide, hs.2.symm, by decide⟩⟩

/-- No item of a run header holds a line end. -/
theorem header_no_newline (title : String) (p : Nat) (d r s : Int)
    (ht : '\n' ∉ title.data) : ∀ item ∈ header title p d r s, '\n' ∉ item.data := by
  have key : ∀ (w : Nat) (x : String), (∀ c ∈ x.data, numChar c = true) →
      '\n' ∉ (setw w x).data := by
    intro w x hx hmem
    exact absurd (setw_numChar w x hx _ hmem) (by decide)
  intro item hitem
  simp only [header, List.mem_cons, List.mem_singleton, List.not_mem_nil, or_false] at hitem
  rcases hitem with h | h | h | h | h | h | h | h | h | h <;> subst h
  · exact ht
  · decide
  · exact key _ _ (toString_nat_numChar p)
  · decide
  · exact key _ _ (toString_int_numChar d)
  · decide
  · exact key _ _ (toString_int_numChar r)
  · decide
  · exact key _ _ (toString_int_numChar s)
  · decide

/-! ## The two drivers, case by case -/

section DriverLemmas

variable {Tria PFT CD DH : Type}

theorem step3_test_no_pcout (lib : Library Tria PFT CD DH) (dim : Nat) (r s : Int)
    (item : String) : Event.pcout item ∉ (Step3.test lib dim r s).trace := by
  unfold Step3.test
  simp [Run.mem_trace_seq, mem_trace_call]

theorem step8_test_no_pcout (lib : Library Tria PFT CD DH) (dim : Nat) (r s : Int)
    (item : String) : Event.pcout item ∉ (Step8.test lib dim r s).trace := by
  unfold Step8.test
  simp [Run.mem_trace_seq, mem_trace_call]

theorem step3_test_raised_iff (lib : Library Tria PFT CD DH) (dim : Nat) (r s : Int)
    (e : Exception) :
    Event.raised e ∈ (Step3.test lib dim r s).trace ↔
      (Step3.test lib dim r s).result = .error e := by
  unfold Step3.test
  simp only [Run.mem_trace_seq, mem_trace_call, Run.result_seq_error, call_result]
  simp

theorem step8_test_raised_iff (lib : Library Tria PFT CD DH) (dim : Nat) (r s : Int)
    (e : Exception) :
    Event.raised e ∈ (Step8.test lib dim r s).trace ↔
      (Step8.test lib dim r s).result = .error e := by
  unfold Step8.test
  simp only [Run.mem_trace_seq, mem_trace_call, Run.result_seq_error, call_result]
  simp

theorem step3_test_ok_iff_no_raise (lib : Library Tria PFT CD DH) (dim : Nat) (r s : Int) :
    (Step3.test lib dim r s).result = .ok () ↔
      ∀ e, Event.raised e ∉ (Step3.test lib dim r s).trace := by
  simp only [step3_test_raised_iff]
  cases (Step3.test lib dim r s).result <;> simp

theorem step8_test_ok_iff_no_raise (lib : Library Tria PFT CD DH) (dim : Nat) (r s : Int) :
    (Step8.test lib dim r s).result = .ok () ↔
      ∀ e, Event.raised e ∉ (Step8.test lib dim r s).trace := by
  simp only [step8_test_raised_iff]
  cases (Step8.test lib dim r s).result <;> simp

/-- A completed step-3 pipeline: every stage returned, and the trace is the
ten calls in program order. -/
theorem step3_test_ok_chain (lib : Library Tria PFT CD DH) (dim : Nat) (r s : Int)
    (hok : (Step3.test lib dim r s).result = .ok ()) :
    ∃ t1 t2 t3 t4 cd pft dh1 dh2,
      lib.subdivided_hyper_cube (lib.new_Triangulation dim) (toUnsigned s) = .ok t1 ∧
      lib.refine_global t1 (toUnsigned r) = .ok t2 ∧
      lib.partition_triangulation lib.n_mpi_processes t2 = .ok t3 ∧
      lib.partition_multigrid_levels t3 = .ok t4 ∧
      lib.copy_from_triangulation t4 (lib.new_fullydistributed_Triangulation dim) = .ok cd ∧
      lib.reinit (lib.new_fullydistributed_Triangulation dim) cd = .ok pft ∧
      lib.distribute_dofs (lib.new_DoFHandler pft) 2 = .ok dh1 ∧
      lib.distribute_mg_dofs dh1 = .ok dh2 ∧
      lib.write_mesh_tria t4 "trid_pdt" true true = .ok () ∧
      lib.write_mesh_pft pft "trid_pft" true true = .ok () ∧
      (Step3.test lib dim r s).trace =
        [.subdivided_hyper_cube (lib.new_Triangulation dim) (toUnsigned s),
         .refine_global t1 (toUnsigned r),
         .partition_triangulation lib.n_mpi_processes t2,
         .partition_multigrid_levels t3,
         .copy_from_triangulation t4 (lib.new_fullydistributed_Triangulation dim),
         .reinit (lib.new_fullydistributed_Triangulation dim) cd,
         .distribute_dofs (lib.new_DoFHandler pft) 2,
         .distribute_mg_dofs dh1,
         .write_mesh_tria t4 "trid_pdt" true true,
         .write_mesh_pft pft "trid_pft" true true] := by
  unfold Step3.test at hok ⊢
  simp only [Run.result_seq_ok, call_result] at hok
  obtain ⟨t1, h1, t2, h2, t3, h3, t4, h4, cd, h5, pft, h6, dh1, h7, dh2, h8, _, h9, h10⟩ := hok
  refine ⟨t1, t2, t3, t4, cd, pft, dh1, dh2, h1, h2, h3, h4, h5, h6, h7, h8, h9, h10, ?_⟩
  rw [call_seq_trace_of_ok _ h1, call_seq_trace_of_ok _ h2, call_seq_trace_of_ok _ h3,
    call_seq_trace_of_ok _ h4, call_seq_trace_of_ok _ h5, call_seq_trace_of_ok _ h6,
    call_seq_trace_of_ok _ h7, call_seq_trace_of_ok _ h8, call_seq_trace_of_ok _ h9,
    call_trace_of_ok _ h10]

/-- A completed step-8 pipeline: every stage returned, and the trace is the
eight calls in program order. -/
theorem step8_test_ok_chain (lib : Library Tria PFT CD DH) (dim : Nat) (r s : Int)
    (hok : (Step8.test lib dim r s).result = .ok ()) :
    ∃ t1 t2 cd pft dh1 dh2,
      lib.subdivided_hyper_cube (lib.new_distributed_Triangulation dim) (toUnsigned s)
        = .ok t1 ∧
      lib.refine_global t1 (toUnsigned r) = .ok t2 ∧
      lib.copy_from_triangulation t2 (lib.new_fullydistributed_Triangulation dim) = .ok cd ∧
      lib.reinit (lib.new_fullydistributed_Triangulation dim) cd = .ok pft ∧
      lib.distribute_dofs (lib.new_DoFHandler pft) 2 = .ok dh1 ∧
      lib.distribute_mg_dofs dh1 = .ok dh2 ∧
      lib.write_mesh_tria t2 "trid_pdt" true true = .ok () ∧
      lib.write_mesh_pft pft "trid_pft" true true = .ok () ∧
      (Step8.test lib dim r s).trace =
        [.subdivided_hyper_cube (lib.new_distributed_Triangulation dim) (toUnsigned s),
         .refine_global t1 (toUnsigned r),
         .copy_from_triangulation t2 (lib.new_fullydistributed_Triangulation dim),
         .reinit (lib.new_fullydistributed_Triangulation dim) cd,
         .distribute_dofs (lib.new_DoFHandler pft) 2,
         .distribute_mg_dofs dh1,
         .write_mesh_tria t2 "trid_pdt" true true,
         .write_mesh_pft pft "trid_pft" true true] := by
  unfold Step8.test at hok ⊢
  simp only [Run.result_seq_ok, call_result] at hok
  obtain ⟨t1, h1, t2, h2, cd, h5, pft, h6, dh1, h7, dh2, h8, _, h9, h10⟩ := hok
  refine ⟨t1, t2, cd, pft, dh1, dh2, h1, h2, h5, h6, h7, h8, h9, h10, ?_⟩
  rw [call_seq_trace_of_ok _ h1, call_seq_trace_of_ok _ h2, call_seq_trace_of_ok _ h5,
    call_seq_trace_of_ok _ h6, call_seq_trace_of_ok _ h7, call_seq_trace_of_ok _ h8,
    call_seq_trace_of_ok _ h9, call_trace_of_ok _ h10]

theorem step3_try_block_dispatched (lib : Library Tria PFT CD DH) (d r s : Int)
    (hd : d = 1 ∨ d = 2 ∨ d = 3) :
    (Step3.try_block lib d r s).result = (Step3.test lib d.toNat r s).result ∧
    (Step3.try_block lib d r s).trace =
      (header "Run step-3:" lib.n_mpi_processes d r s).map Event.pcout ++
        (Step3.test lib d.toNat r s).trace ++
        (match (Step3.test lib d.toNat r s).result with
          | .ok _ => [Event.pcout " success....", Event.pcout endl]
          | .error _ => []) := by
  rcases hd with rfl | rfl | rfl <;>
  · unfold Step3.try_block
    simp only [pcout_seq_trace, pcout_seq_result, header]
    simp [Run.trace_seq, Run.result_seq, pcout]
    cases (Step3.test lib _ r s).result <;> simp

theorem step3_try_block_rejected (lib : Library Tria PFT CD DH) (d r s : Int)
    (hd : ¬ (d = 1 ∨ d = 2 ∨ d = 3)) :
    (Step3.try_block lib d r s).result =
      .error (.ExcMessage "Only working for dimensions 2 and 3!") ∧
    (Step3.try_block lib d r s).trace =
      (header "Run step-3:" lib.n_mpi_processes d r s).map Event.pcout ++
        [Event.raised (.ExcMessage "Only working for dimensions 2 and 3!")] := by
  simp only [not_or] at hd
  unfold Step3.try_block
  simp only [pcout_seq_trace, pcout_seq_result, header]
  simp [hd.1, hd.2.1, hd.2.2, AssertThrow, throwExc, Run.trace_seq, Run.result_seq]

theorem step8_try_block_dispatched (lib : Library Tria PFT CD DH) (d r s : Int)
    (hd : d = 2 ∨ d = 3) :
    (Step8.try_block lib d r s).result = (Step8.test lib d.toNat r s).result ∧
    (Step8.try_block lib d r s).trace =
      (header "Run step-8: " lib.n_mpi_processes d r s).map Event.pcout ++
        (Step8.test lib d.toNat r s).trace ++
        (match (Step8.test lib d.toNat r s).result with
          | .ok _ => [Event.pcout " success....", Event.pcout endl]
          | .error _ => []) := by
  rcases hd with rfl | rfl <;>
  · unfold Step8.try_block
    simp only [pcout_seq_trace, pcout_seq_result, header]
    simp [Run.trace_seq, Run.result_seq, pcout]
    cases (Step8.test lib _ r s).result <;> simp

theorem step8_try_block_rejected (lib : Library Tria PFT CD DH) (d r s : Int)
    (hd : ¬ (d = 2 ∨ d = 3)) :
    (Step8.try_block lib d r s).result =
      .error (.ExcMessage "Only working for dimensions 2 and 3!") ∧
    (Step8.try_block lib d r s).trace =
      (header "Run step-8: " lib.n_mpi_processes d r s).map Event.pcout ++
        [Event.raised (.ExcMessage "Only working for dimensions 2 and 3!")] := by
  simp only [not_or] at hd
  unfold Step8.try_block
  simp only [pcout_seq_trace, pcout_seq_result, header]
  simp [hd.1, hd.2, AssertThrow, throwExc, Run.trace_seq, Run.result_seq]

theorem step3_main_of_args (lib : Library Tria PFT CD DH) (prog a1 a2 a3 : String)
    (rest : List String) :
    (Step3.main lib (prog :: a1 :: a2 :: a3 :: rest)).result = .ok 0 ∧
    (Step3.main lib (prog :: a1 :: a2 :: a3 :: rest)).trace =
      (Step3.try_block lib (lib.atoi a1) (lib.atoi a2) (lib.atoi a3)).trace ++
        (match (Step3.try_block lib (lib.atoi a1) (lib.atoi a2) (lib.atoi a3)).result with
          | .ok _ => []
          | .error _ => [Event.pcout " failed....", Event.pcout endl]) := by
  unfold Step3.main
  simp only [Run.trace_seq, Run.result_seq, tryCatchAll_trace, tryCatchAll_result]
  have hget : ∀ (i : Nat), (prog :: a1 :: a2 :: a3 :: rest).getD 1 "" = a1 ∧
      (prog :: a1 :: a2 :: a3 :: rest).getD 2 "" = a2 ∧
      (prog :: a1 :: a2 :: a3 :: rest).getD 3 "" = a3 := fun _ => ⟨rfl, rfl, rfl⟩
  rw [(hget 0).1, (hget 0).2.1, (hget 0).2.2]
  cases hres : (Step3.try_block lib (lib.atoi a1) (lib.atoi a2) (lib.atoi a3)).result <;>
    simp [AssertThrow, Run.ret, Step3.catch_block, pcout, Run.trace_seq, Run.result_seq, pure]

theorem step8_main_of_args (lib : Library Tria PFT CD DH) (prog a1 a2 a3 : String)
    (rest : List String) :
    (Step8.main lib (prog :: a1 :: a2 :: a3 :: rest)).result = .ok 0 ∧
    (Step8.main lib (prog :: a1 :: a2 :: a3 :: rest)).trace =
      (Step8.try_block lib (lib.atoi a1) (lib.atoi a2) (lib.atoi a3)).trace ++
        (match (Step8.try_block lib (lib.atoi a1) (lib.atoi a2) (lib.atoi a3)).result with
          | .ok _ => []
          | .error _ => [Event.pcout " failed....", Event.pcout endl]) := by
  unfold Step8.main
  simp only [Run.trace_seq, Run.result_seq, tryCatchAll_trace, tryCatchAll_result]
  have hget : ∀ (i : Nat), (prog :: a1 :: a2 :: a3 :: rest).getD 1 "" = a1 ∧
      (prog :: a1 :: a2 :: a3 :: rest).getD 2 "" = a2 ∧
      (prog :: a1 :: a2 :: a3 :: rest).getD 3 "" = a3 := fun _ => ⟨rfl, rfl, rfl⟩
  rw [(hget 0).1, (hget 0).2.1, (hget 0).2.2]
  cases hres : (Step8.try_block lib (lib.atoi a1) (lib.atoi a2) (lib.atoi a3)).result <;>
    simp [AssertThrow, Run.ret, Step8.catch_block, pcout, Run.trace_seq, Run.result_seq, pure]

/-- The three ways a step-3 run with three positional arguments can go. -/
theorem step3_main_cases (lib : Library Tria PFT CD DH) (prog a1 a2 a3 : String)
    (rest : List String) :
    ((lib.atoi a1 = 1 ∨ lib.atoi a1 = 2 ∨ lib.atoi a1 = 3) ∧
      (Step3.test lib (lib.atoi a1).toNat (lib.atoi a2) (lib.atoi a3)).result = .ok () ∧
      (Step3.main lib (prog :: a1 :: a2 :: a3 :: rest)).trace =
        (header "Run step-3:" lib.n_mpi_processes (lib.atoi a1) (lib.atoi a2)
            (lib.atoi a3)).map Event.pcout ++
          (Step3.test lib (lib.atoi a1).toNat (lib.atoi a2) (lib.atoi a3)).trace ++
          [Event.pcout " success....", Event.pcout endl]) ∨
    ((lib.atoi a1 = 1 ∨ lib.atoi a1 = 2 ∨ lib.atoi a1 = 3) ∧
      (∃ e, (Step3.test lib (lib.atoi a1).toNat (lib.atoi a2) (lib.atoi a3)).result
        = .error e) ∧
      (Step3.main lib (prog :: a1 :: a2 :: a3 :: rest)).trace =
        (header "Run step-3:" lib.n_mpi_processes (lib.atoi a1) (lib.atoi a2)
            (lib.atoi a3)).map Event.pcout ++
          (Step3.test lib (lib.atoi a1).toNat (lib.atoi a2) (lib.atoi a3)).trace ++
          [Event.pcout " failed....", Event.pcout endl]) ∨
    (¬ (lib.atoi a1 = 1 ∨ lib.atoi a1 = 2 ∨ lib.atoi a1 = 3) ∧
      (Step3.main lib (prog :: a1 :: a2 :: a3 :: rest)).trace =
        (header "Run step-3:" lib.n_mpi_processes (lib.atoi a1) (lib.atoi a2)
            (lib.atoi a3)).map Event.pcout ++
          [Event.raised (.ExcMessage "Only working for dimensions 2 and 3!"),
           Event.pcout " failed....", Event.pcout endl]) := by
  have hm := (step3_main_of_args lib prog a1 a2 a3 rest).2
  by_cases hd : lib.atoi a1 = 1 ∨ lib.atoi a1 = 2 ∨ lib.atoi a1 = 3
  · obtain ⟨hr, ht⟩ := step3_try_block_dispatched lib _ (lib.atoi a2) (lib.atoi a3) hd
    rw [hr, ht] at hm
    cases hres : (Step3.test lib (lib.atoi a1).toNat (lib.atoi a2) (lib.atoi a3)).result with
    | ok u =>
      left
      rw [hres] at hm
      exact ⟨hd, rfl, by simpa using hm⟩
    | error e =>
      right; left
      rw [hres] at hm
      exact ⟨hd, ⟨e, rfl⟩, by simpa using hm⟩
  · obtain ⟨hr, ht⟩ := step3_try_block_rejected lib _ (lib.atoi a2) (lib.atoi a3) hd
    rw [hr, ht] at hm
    right; right
    exact ⟨hd, by simpa using hm⟩

/-- The three ways a step-8 run with three positional arguments can go. -/
theorem step8_main_cases (lib : Library Tria PFT CD DH) (prog a1 a2 a3 : String)
    (rest : List String) :
    ((lib.atoi a1 = 2 ∨ lib.atoi a1 = 3) ∧
      (Step8.test lib (lib.atoi a1).toNat (lib.atoi a2) (lib.atoi a3)).result = .ok () ∧
      (Step8.main lib (prog :: a1 :: a2 :: a3 :: rest)).trace =
        (header "Run step-8: " lib.n_mpi_processes (lib.atoi a1) (lib.atoi a2)
            (lib.atoi a3)).map Event.pcout ++
          (Step8.test lib (lib.atoi a1).toNat (lib.atoi a2) (lib.atoi a3)).trace ++
          [Event.pcout " success....", Event.pcout endl]) ∨
    ((lib.atoi a1 = 2 ∨ lib.atoi a1 = 3) ∧
      (∃ e, (Step8.test lib (lib.atoi a1).toNat (lib.atoi a2) (lib.atoi a3)).result
        = .error e) ∧
      (Step8.main lib (prog :: a1 :: a2 :: a3 :: rest)).trace =
        (header "Run step-8: " lib.n_mpi_processes (lib.atoi a1) (lib.atoi a2)
            (lib.atoi a3)).map Event.pcout ++
          (Step8.test lib (lib.atoi a1).toNat (lib.atoi a2) (lib.atoi a3)).trace ++
          [Event.pcout " failed....", Event.pcout endl]) ∨
    (¬ (lib.atoi a1 = 2 ∨ lib.atoi a1 = 3) ∧
      (Step8.main lib (prog :: a1 :: a2 :: a3 :: rest)).trace =
        (header "Run step-8: " lib.n_mpi_processes (lib.atoi a1) (lib.atoi a2)
            (lib.atoi a3)).map Event.pcout ++
          [Event.raised (.ExcMessage "Only working for dimensions 2 and 3!"),
           Event.pcout " failed....", Event.pcout endl]) := by
  have hm := (step8_main_of_args lib prog a1 a2 a3 rest).2
  by_cases hd : lib.atoi a1 = 2 ∨ lib.atoi a1 = 3
  · obtain ⟨hr, ht⟩ := step8_try_block_dispatched lib _ (lib.atoi a2) (lib.atoi a3) hd
    rw [hr, ht] at hm
    cases hres : (Step8.test lib (lib.atoi a1).toNat (lib.atoi a2) (lib.atoi a3)).result with
    | ok u =>
      left
      rw [hres] at hm
      exact ⟨hd, rfl, by simpa using hm⟩
    | error e =>
      right; left
      rw [hres] at hm
      exact ⟨hd, ⟨e, rfl⟩, by simpa using hm⟩
  · obtain ⟨hr, ht⟩ := step8_try_block_rejected lib _ (lib.atoi a2) (lib.atoi a3) hd
    rw [hr, ht] at hm
    right; right
    exact ⟨hd, by simpa using hm⟩

/-- With at most two positional arguments `main` throws before the `try`
block, and the exception leaves `main`. -/
theorem step3_main_of_few_args (lib : Library Tria PFT CD DH) (argv : List String)
    (h : argv.length ≤ 3) :
    Step3.main lib argv =
      ⟨[Event.raised (.ExcMessage "You have not provided two command-line arguments.")],
       .error (.ExcMessage "You have not provided two command-line arguments.")⟩ := by
  have h' : ¬ (3 < argv.length) := by omega
  apply Run.eq_of_trace_result <;>
    simp [Step3.main, Run.trace_seq, Run.result_seq, AssertThrow, throwExc, h']

theorem step8_main_of_few_args (lib : Library Tria PFT CD DH) (argv : List String)
    (h : argv.length ≤ 3) :
    Step8.main lib argv =
      ⟨[Event.raised (.ExcMessage "You have not provided two command-line arguments.")],
       .error (.ExcMessage "You have not provided two command-line arguments.")⟩ := by
  have h' : ¬ (3 < argv.length) := by omega
  apply Run.eq_of_trace_result <;>
    simp [Step8.main, Run.trace_seq, Run.result_seq, AssertThrow, throwExc, h']

/-! ### What is streamed into `pcout` -/

theorem pcoutItems_append (l1 l2 : List (Event Tria PFT CD DH)) :
    pcoutItems (l1 ++ l2) = pcoutItems l1 ++ pcoutItems l2 := by
  simp [pcoutItems, List.filterMap_append]

theorem pcoutItems_map_pcout (items : List String) :
    pcoutItems (items.map (Event.pcout : String → Event Tria PFT CD DH)) = items := by
  induction items with
  | nil => rfl
  | cons x xs ih => simpa [pcoutItems] using ih

theorem mem_pcoutItems (trace : List (Event Tria PFT CD DH)) (item : String) :
    item ∈ pcoutItems trace ↔ Event.pcout item ∈ trace := by
  induction trace with
  | nil => simp [pcoutItems]
  | cons ev evs ih =>
    cases ev <;> simp_all [pcoutItems, List.filterMap_cons]

theorem pcoutItems_eq_nil (trace : List (Event Tria PFT CD DH))
    (h : ∀ item, Event.pcout item ∉ trace) : pcoutItems trace = [] := by
  apply List.eq_nil_iff_forall_not_mem.2
  intro item hitem
  exact h item ((mem_pcoutItems trace item).1 hitem)

/-- The items logged by a step-3 run with three positional arguments. -/
theorem step3_main_pcoutItems (lib : Library Tria PFT CD DH) (prog a1 a2 a3 : String)
    (rest : List String) :
    (((lib.atoi a1 = 1 ∨ lib.atoi a1 = 2 ∨ lib.atoi a1 = 3) ∧
        (Step3.test lib (lib.atoi a1).toNat (lib.atoi a2) (lib.atoi a3)).result = .ok ()) ∧
      pcoutItems (Step3.main lib (prog :: a1 :: a2 :: a3 :: rest)).trace =
        header "Run step-3:" lib.n_mpi_processes (lib.atoi a1) (lib.atoi a2) (lib.atoi a3)
          ++ [" success....", endl]) ∨
    (¬ ((lib.atoi a1 = 1 ∨ lib.atoi a1 = 2 ∨ lib.atoi a1 = 3) ∧
        (Step3.test lib (lib.atoi a1).toNat (lib.atoi a2) (lib.atoi a3)).result = .ok ()) ∧
      pcoutItems (Step3.main lib (prog :: a1 :: a2 :: a3 :: rest)).trace =
        header "Run step-3:" lib.n_mpi_processes (lib.atoi a1) (lib.atoi a2) (lib.atoi a3)
          ++ [" failed....", endl]) := by
  have hT := pcoutItems_eq_nil _
    (step3_test_no_pcout lib (lib.atoi a1).toNat (lib.atoi a2) (lib.atoi a3))
  rcases step3_main_cases lib prog a1 a2 a3 rest with ⟨hd, hok, ht⟩ | ⟨hd, ⟨e, he⟩, ht⟩ | ⟨hd, ht⟩
  · left
    refine ⟨⟨hd, hok⟩, ?_⟩
    rw [ht, pcoutItems_append, pcoutItems_append, pcoutItems_map_pcout, hT]
    simp [pcoutItems]
  · right
    refine ⟨fun h => by rw [he] at h; exact absurd h.2 (by simp), ?_⟩
    rw [ht, pcoutItems_append, pcoutItems_append, pcoutItems_map_pcout, hT]
    simp [pcoutItems]
  · right
    refine ⟨fun h => hd h.1, ?_⟩
    rw [ht, pcoutItems_append, pcoutItems_map_pcout]
    simp [pcoutItems]

/-- The items logged by a step-8 run with three positional arguments. -/
theorem step8_main_pcoutItems (lib : Library Tria PFT CD DH) (prog a1 a2 a3 : String)
    (rest : List String) :
    (((lib.atoi a1 = 2 ∨ lib.atoi a1 = 3) ∧
        (Step8.test lib (lib.atoi a1).toNat (lib.atoi a2) (lib.atoi a3)).result = .ok ()) ∧
      pcoutItems (Step8.main lib (prog :: a1 :: a2 :: a3 :: rest)).trace =
        header "Run step-8: " lib.n_mpi_processes (lib.atoi a1) (lib.atoi a2) (lib.atoi a3)
          ++ [" success....", endl]) ∨
    (¬ ((lib.atoi a1 = 2 ∨ lib.atoi a1 = 3) ∧
        (Step8.test lib (lib.atoi a1).toNat (lib.atoi a2) (lib.atoi a3)).result = .ok ()) ∧
      pcoutItems (Step8.main lib (prog :: a1 :: a2 :: a3 :: rest)).trace =
        header "Run step-8: " lib.n_mpi_processes (lib.atoi a1) (lib.atoi a2) (lib.atoi a3)
          ++ [" failed....", endl]) := by
  have hT := pcoutItems_eq_nil _
    (step8_test_no_pcout lib (lib.atoi a1).toNat (lib.atoi a2) (lib.atoi a3))
  rcases step8_main_cases lib prog a1 a2 a3 rest with ⟨hd, hok, ht⟩ | ⟨hd, ⟨e, he⟩, ht⟩ | ⟨hd, ht⟩
  · left
    refine ⟨⟨hd, hok⟩, ?_⟩
    rw [ht, pcoutItems_append, pcoutItems_append, pcoutItems_map_pcout, hT]
    simp [pcoutItems]
  · right
    refine ⟨fun h => by rw [he] at h; exact absurd h.2 (by simp), ?_⟩
    rw [ht, pcoutItems_append, pcoutItems_append, pcoutItems_map_pcout, hT]
    simp [pcoutItems]
  · right
    refine ⟨fun h => hd h.1, ?_⟩
    rw [ht, pcoutItems_append, pcoutItems_map_pcout]
    simp [pcoutItems]

/-- Whether a list of logged items made of a header and one status holds a
given status. -/
theorem status_mem_iff (title : String) (p : Nat) (d r s : Int)
    (ht : title ≠ " success...." ∧ title ≠ " failed....") (status : String) :
    (" success...." ∈ header title p d r s ++ [status, endl] ↔ status = " success....") ∧
    (" failed...." ∈ header title p d r s ++ [status, endl] ↔ status = " failed....") := by
  have h := header_no_status title p d r s ht
  have e1 : " success...." ≠ endl := by decide
  have e2 : " failed...." ≠ endl := by decide
  constructor
  · simp only [List.mem_append, List.mem_cons, List.mem_singleton, List.not_mem_nil, or_false]
    constructor
    · rintro (h1 | h1 | h1)
      · exact absurd h1 h.1
      · exact h1.symm
      · exact absurd h1 e1
    · intro h1; exact Or.inr (Or.inl h1.symm)
  · simp only [List.mem_append, List.mem_cons, List.mem_singleton, List.not_mem_nil, or_false]
    constructor
    · rintro (h1 | h1 | h1)
      · exact absurd h1 h.2
      · exact h1.symm
      · exact absurd h1 e2
    · intro h1; exact Or.inr (Or.inl h1.symm)

/-- A Step3 run with three positional arguments raises no exception exactly
when the dimension is dispatched and the pipeline returns. -/
theorem step3_main_no_raise_iff (lib : Library Tria PFT CD DH) (prog a1 a2 a3 : String)
    (rest : List String) :
    (∀ e, Event.raised e ∉ (Step3.main lib (prog :: a1 :: a2 :: a3 :: rest)).trace) ↔
      ((lib.atoi a1 = 1 ∨ lib.atoi a1 = 2 ∨ lib.atoi a1 = 3) ∧
        (Step3.test lib (lib.atoi a1).toNat (lib.atoi a2) (lib.atoi a3)).result = .ok ()) := by
  rcases step3_main_cases lib prog a1 a2 a3 rest with ⟨hd, hok, ht⟩ | ⟨hd, ⟨e, he⟩, ht⟩ | ⟨hd, ht⟩
  · constructor
    · intro _; exact ⟨hd, hok⟩
    · intro _ e he
      rw [ht] at he
      simp only [List.mem_append, List.mem_map, List.mem_cons, List.mem_singleton,
        List.not_mem_nil, or_false, reduceCtorEq, and_false, exists_false, false_or] at he
      rw [step3_test_raised_iff, hok] at he
      exact absurd he (by simp)
  · constructor
    · intro h
      exact absurd ((step3_test_raised_iff lib _ _ _ e).2 he) (fun hm => h e (by
        rw [ht]; simp [hm]))
    · intro h; rw [he] at h; exact absurd h.2 (by simp)
  · constructor
    · intro h
      exact absurd (show Event.raised (.ExcMessage "Only working for dimensions 2 and 3!") ∈
        (Step3.main lib (prog :: a1 :: a2 :: a3 :: rest)).trace by rw [ht]; simp) (h _)
    · intro h; exact absurd h.1 hd

/-- The status logged by a Step3 run with three positional arguments. -/
theorem step3_main_status (lib : Library Tria PFT CD DH) (prog a1 a2 a3 : String)
    (rest : List String) :
    (Event.pcout " success...." ∈ (Step3.main lib (prog :: a1 :: a2 :: a3 :: rest)).trace ↔
      ((lib.atoi a1 = 1 ∨ lib.atoi a1 = 2 ∨ lib.atoi a1 = 3) ∧
        (Step3.test lib (lib.atoi a1).toNat (lib.atoi a2) (lib.atoi a3)).result = .ok ())) ∧
    (Event.pcout " failed...." ∈ (Step3.main lib (prog :: a1 :: a2 :: a3 :: rest)).trace ↔
      ¬ ((lib.atoi a1 = 1 ∨ lib.atoi a1 = 2 ∨ lib.atoi a1 = 3) ∧
        (Step3.test lib (lib.atoi a1).toNat (lib.atoi a2) (lib.atoi a3)).result = .ok ())) := by
  have hst := fun status => status_mem_iff "Run step-3:" lib.n_mpi_processes (lib.atoi a1)
    (lib.atoi a2) (lib.atoi a3) ⟨by decide, by decide⟩ status
  rw [← mem_pcoutItems, ← mem_pcoutItems]
  rcases step3_main_pcoutItems lib prog a1 a2 a3 rest with ⟨hc, hi⟩ | ⟨hc, hi⟩
  · rw [hi, (hst _).1, (hst _).2]
    simp [hc]
  · rw [hi, (hst _).1, (hst _).2]
    simp [hc]

/-- A Step8 run with three positional arguments raises no exception exactly
when the dimension is dispatched and the pipeline returns. -/
theorem step8_main_no_raise_iff (lib : Library Tria PFT CD DH) (prog a1 a2 a3 : String)
    (rest : List String) :
    (∀ e, Event.raised e ∉ (Step8.main lib (prog :: a1 :: a2 :: a3 :: rest)).trace) ↔
      ((lib.atoi a1 = 2 ∨ lib.atoi a1 = 3) ∧
        (Step8.test lib (lib.atoi a1).toNat (lib.atoi a2) (lib.atoi a3)).result = .ok ()) := by
  rcases step8_main_cases lib prog a1 a2 a3 rest with ⟨hd, hok, ht⟩ | ⟨hd, ⟨e, he⟩, ht⟩ | ⟨hd, ht⟩
  · constructor
    · intro _; exact ⟨hd, hok⟩
    · intro _ e he
      rw [ht] at he
      simp only [List.mem_append, List.mem_map, List.mem_cons, List.mem_singleton,
        List.not_mem_nil, or_false, reduceCtorEq, and_false, exists_false, false_or] at he
      rw [step8_test_raised_iff, hok] at he
      exact absurd he (by simp)
  · constructor
    · intro h
      exact absurd ((step8_test_raised_iff lib _ _ _ e).2 he) (fun hm => h e (by
        rw [ht]; simp [hm]))
    · intro h; rw [he] at h; exact absurd h.2 (by simp)
  · constructor
    · intro h
      exact absurd (show Event.raised (.ExcMessage "Only working for dimensions 2 and 3!") ∈
        (Step8.main lib (prog :: a1 :: a2 :: a3 :: rest)).trace by rw [ht]; simp) (h _)
    · intro h; exact absurd h.1 hd

/-- The status logged by a Step8 run with three positional arguments. -/
theorem step8_main_status (lib : Library Tria PFT CD DH) (prog a1 a2 a3 : String)
    (rest : List String) :
    (Event.pcout " success...." ∈ (Step8.main lib (prog :: a1 :: a2 :: a3 :: rest)).trace ↔
      ((lib.atoi a1 = 2 ∨ lib.atoi a1 = 3) ∧
        (Step8.test lib (lib.atoi a1).toNat (lib.atoi a2) (lib.atoi a3)).result = .ok ())) ∧
    (Event.pcout " failed...." ∈ (Step8.main lib (prog :: a1 :: a2 :: a3 :: rest)).trace ↔
      ¬ ((lib.atoi a1 = 2 ∨ lib.atoi a1 = 3) ∧
        (Step8.test lib (lib.atoi a1).toNat (lib.atoi a2) (lib.atoi a3)).result = .ok ())) := by
  have hst := fun status => status_mem_iff "Run step-8: " lib.n_mpi_processes (lib.atoi a1)
    (lib.atoi a2) (lib.atoi a3) ⟨by decide, by decide⟩ status
  rw [← mem_pcoutItems, ← mem_pcoutItems]
  rcases step8_main_pcoutItems lib prog a1 a2 a3 rest with ⟨hc, hi⟩ | ⟨hc, hi⟩
  · rw [hi, (hst _).1, (hst _).2]
    simp [hc]
  · rw [hi, (hst _).1, (hst _).2]
    simp [hc]

/-- When `distribute_dofs` throws, the pipeline of Step3 ends there: no mesh is
written. -/
theorem step3_test_dofs_error (lib : Library Tria PFT CD DH) (dim : Nat) (r s : Int)
    (dh : DH) (k : Nat) (e : Exception)
    (h1 : Event.distribute_dofs dh k ∈ (Step3.test lib dim r s).trace)
    (h2 : lib.distribute_dofs dh k = .error e) :
    (Step3.test lib dim r s).result = .error e ∧
    (∀ t f a b, Event.write_mesh_tria t f a b ∉ (Step3.test lib dim r s).trace) ∧
    (∀ t f a b, Event.write_mesh_pft t f a b ∉ (Step3.test lib dim r s).trace) := by
  unfold Step3.test at h1 ⊢
  simp only [Run.mem_trace_seq, mem_trace_call, Run.result_seq_error, call_result,
    reduceCtorEq, false_or, and_false, exists_false, or_false,
    Event.distribute_dofs.injEq] at h1 ⊢
  obtain ⟨t1, g1, t2, g2, t3, g3, t4, g4, cd, g5, pft, g6, rfl, rfl⟩ := h1
  simp [g1, g2, g3, g4, g5, g6, h2]

/-- When `distribute_mg_dofs` throws, the pipeline of Step3 ends there: no mesh
is written. -/
theorem step3_test_mg_dofs_error (lib : Library Tria PFT CD DH) (dim : Nat) (r s : Int)
    (dh : DH) (e : Exception)
    (h1 : Event.distribute_mg_dofs dh ∈ (Step3.test lib dim r s).trace)
    (h2 : lib.distribute_mg_dofs dh = .error e) :
    (Step3.test lib dim r s).result = .error e ∧
    (∀ t f a b, Event.write_mesh_tria t f a b ∉ (Step3.test lib dim r s).trace) ∧
    (∀ t f a b, Event.write_mesh_pft t f a b ∉ (Step3.test lib dim r s).trace) := by
  unfold Step3.test at h1 ⊢
  simp only [Run.mem_trace_seq, mem_trace_call, Run.result_seq_error, call_result,
    reduceCtorEq, false_or, and_false, exists_false, or_false,
    Event.distribute_mg_dofs.injEq] at h1 ⊢
  obtain ⟨t1, g1, t2, g2, t3, g3, t4, g4, cd, g5, pft, g6, dh1, g7, rfl⟩ := h1
  simp [g1, g2, g3, g4, g5, g6, g7, h2]

/-- The arguments of the first two calls of the pipeline of Step3. -/
theorem step3_test_args (lib : Library Tria PFT CD DH) (dim : Nat) (r s : Int) :
    (∀ tria n, Event.subdivided_hyper_cube tria n ∈ (Step3.test lib dim r s).trace →
      tria = lib.new_Triangulation dim ∧ n = toUnsigned s) ∧
    (∀ tria n, Event.refine_global tria n ∈ (Step3.test lib dim r s).trace →
      lib.subdivided_hyper_cube (lib.new_Triangulation dim) (toUnsigned s) = .ok tria ∧
        n = toUnsigned r) ∧
    Event.subdivided_hyper_cube (lib.new_Triangulation dim) (toUnsigned s)
      ∈ (Step3.test lib dim r s).trace ∧
    (∀ t1, lib.subdivided_hyper_cube (lib.new_Triangulation dim) (toUnsigned s) = .ok t1 →
      Event.refine_global t1 (toUnsigned r) ∈ (Step3.test lib dim r s).trace) := by
  unfold Step3.test
  simp only [Run.mem_trace_seq, mem_trace_call, call_result, reduceCtorEq, false_or,
    and_false, exists_false, or_false, Event.subdivided_hyper_cube.injEq,
    Event.refine_global.injEq]
  refine ⟨fun tria n h => h, ?_, by simp, fun t1 h => by simp [h]⟩
  rintro tria n ⟨t1, g1, h⟩
  obtain ⟨rfl, rfl⟩ := h
  exact ⟨g1, rfl⟩

/-- When `distribute_dofs` throws, the pipeline of Step8 ends there: no mesh is
written. -/
theorem step8_test_dofs_error (lib : Library Tria PFT CD DH) (dim : Nat) (r s : Int)
    (dh : DH) (k : Nat) (e : Exception)
    (h1 : Event.distribute_dofs dh k ∈ (Step8.test lib dim r s).trace)
    (h2 : lib.distribute_dofs dh k = .error e) :
    (Step8.test lib dim r s).result = .error e ∧
    (∀ t f a b, Event.write_mesh_tria t f a b ∉ (Step8.test lib dim r s).trace) ∧
    (∀ t f a b, Event.write_mesh_pft t f a b ∉ (Step8.test lib dim r s).trace) := by
  unfold Step8.test at h1 ⊢
  simp only [Run.mem_trace_seq, mem_trace_call, Run.result_seq_error, call_result,
    reduceCtorEq, false_or, and_false, exists_false, or_false,
    Event.distribute_dofs.injEq] at h1 ⊢
  obtain ⟨t1, g1, t2, g2, cd, g5, pft, g6, rfl, rfl⟩ := h1
  simp [g1, g2, g5, g6, h2]

/-- When `distribute_mg_dofs` throws, the pipeline of Step8 ends there: no mesh
is written. -/
theorem step8_test_mg_dofs_error (lib : Library Tria PFT CD DH) (dim : Nat) (r s : Int)
    (dh : DH) (e : Exception)
    (h1 : Event.distribute_mg_dofs dh ∈ (Step8.test lib dim r s).trace)
    (h2 : lib.distribute_mg_dofs dh = .error e) :
    (Step8.test lib dim r s).result = .error e ∧
    (∀ t f a b, Event.write_mesh_tria t f a b ∉ (Step8.test lib dim r s).trace) ∧
    (∀ t f a b, Event.write_mesh_pft t f a b ∉ (Step8.test lib dim r s).trace) := by
  unfold Step8.test at h1 ⊢
  simp only [Run.mem_trace_seq, mem_trace_call, Run.result_seq_error, call_result,
    reduceCtorEq, false_or, and_false, exists_false, or_false,
    Event.distribute_mg_dofs.injEq] at h1 ⊢
  obtain ⟨t1, g1, t2, g2, cd, g5, pft, g6, dh1, g7, rfl⟩ := h1
  simp [g1, g2, g5, g6, g7, h2]

/-- The arguments of the first two calls of the pipeline of Step8. -/
theorem step8_test_args (lib : Library Tria PFT CD DH) (dim : Nat) (r s : Int) :
    (∀ tria n, Event.subdivided_hyper_cube tria n ∈ (Step8.test lib dim r s).trace →
      tria = lib.new_distributed_Triangulation dim ∧ n = toUnsigned s) ∧
    (∀ tria n, Event.refine_global tria n ∈ (Step8.test lib dim r s).trace →
      lib.subdivided_hyper_cube (lib.new_distributed_Triangulation dim) (toUnsigned s) = .ok tria ∧
        n = toUnsigned r) ∧
    Event.subdivided_hyper_cube (lib.new_distributed_Triangulation dim) (toUnsigned s)
      ∈ (Step8.test lib dim r s).trace ∧
    (∀ t1, lib.subdivided_hyper_cube (lib.new_distributed_Triangulation dim) (toUnsigned s) = .ok t1 →
      Event.refine_global t1 (toUnsigned r) ∈ (Step8.test lib dim r s).trace) := by
  unfold Step8.test
  simp only [Run.mem_trace_seq, mem_trace_call, call_result, reduceCtorEq, false_or,
    and_false, exists_false, or_false, Event.subdivided_hyper_cube.injEq,
    Event.refine_global.injEq]
  refine ⟨fun tria n h => h, ?_, by simp, fun t1 h => by simp [h]⟩
  rintro tria n ⟨t1, g1, h⟩
  obtain ⟨rfl, rfl⟩ := h
  exact ⟨g1, rfl⟩

/-- The library calls of a Step3 run with three positional arguments are those
of the pipeline, which runs only for a dispatched dimension. -/
theorem step3_mem_main_trace_call (lib : Library Tria PFT CD DH) (prog a1 a2 a3 : String)
    (rest : List String) (ev : Event Tria PFT CD DH) (hev : ev.isCall = true) :
    ev ∈ (Step3.main lib (prog :: a1 :: a2 :: a3 :: rest)).trace ↔
      ((lib.atoi a1 = 1 ∨ lib.atoi a1 = 2 ∨ lib.atoi a1 = 3) ∧
        ev ∈ (Step3.test lib (lib.atoi a1).toNat (lib.atoi a2) (lib.atoi a3)).trace) := by
  have hp : ∀ item, ev ≠ Event.pcout item := by
    intro item h; rw [h] at hev; exact absurd hev (by simp [Event.isCall])
  have hr : ∀ e, ev ≠ Event.raised e := by
    intro e h; rw [h] at hev; exact absurd hev (by simp [Event.isCall])
  rcases step3_main_cases lib prog a1 a2 a3 rest with ⟨hd, _, ht⟩ | ⟨hd, _, ht⟩ | ⟨hd, ht⟩
  · rw [ht]
    simp only [List.mem_append, List.mem_map, List.mem_cons, List.mem_singleton,
      List.not_mem_nil, or_false]
    constructor
    · rintro ((⟨item, _, h⟩ | h) | h | h)
      · exact absurd h.symm (hp item)
      · exact ⟨hd, h⟩
      · exact absurd h (hp _)
      · exact absurd h (hp _)
    · intro h; exact Or.inl (Or.inr h.2)
  · rw [ht]
    simp only [List.mem_append, List.mem_map, List.mem_cons, List.mem_singleton,
      List.not_mem_nil, or_false]
    constructor
    · rintro ((⟨item, _, h⟩ | h) | h | h)
      · exact absurd h.symm (hp item)
      · exact ⟨hd, h⟩
      · exact absurd h (hp _)
      · exact absurd h (hp _)
    · intro h; exact Or.inl (Or.inr h.2)
  · rw [ht]
    simp only [List.mem_append, List.mem_map, List.mem_cons, List.mem_singleton,
      List.not_mem_nil, or_false]
    constructor
    · rintro (⟨item, _, h⟩ | h | h | h)
      · exact absurd h.symm (hp item)
      · exact absurd h (hr _)
      · exact absurd h (hp _)
      · exact absurd h (hp _)
    · intro h; exact absurd h.1 hd

/-- The library calls of a Step8 run with three positional arguments are those
of the pipeline, which runs only for a dispatched dimension. -/
theorem step8_mem_main_trace_call (lib : Library Tria PFT CD DH) (prog a1 a2 a3 : String)
    (rest : List String) (ev : Event Tria PFT CD DH) (hev : ev.isCall = true) :
    ev ∈ (Step8.main lib (prog :: a1 :: a2 :: a3 :: rest)).trace ↔
      ((lib.atoi a1 = 2 ∨ lib.atoi a1 = 3) ∧
        ev ∈ (Step8.test lib (lib.atoi a1).toNat (lib.atoi a2) (lib.atoi a3)).trace) := by
  have hp : ∀ item, ev ≠ Event.pcout item := by
    intro item h; rw [h] at hev; exact absurd hev (by simp [Event.isCall])
  have hr : ∀ e, ev ≠ Event.raised e := by
    intro e h; rw [h] at hev; exact absurd hev (by simp [Event.isCall])
  rcases step8_main_cases lib prog a1 a2 a3 rest with ⟨hd, _, ht⟩ | ⟨hd, _, ht⟩ | ⟨hd, ht⟩
  · rw [ht]
    simp only [List.mem_append, List.mem_map, List.mem_cons, List.mem_singleton,
      List.not_mem_nil, or_false]
    constructor
    · rintro ((⟨item, _, h⟩ | h) | h | h)
      · exact absurd h.symm (hp item)
      · exact ⟨hd, h⟩
      · exact absurd h (hp _)
      · exact absurd h (hp _)
    · intro h; exact Or.inl (Or.inr h.2)
  · rw [ht]
    simp only [List.mem_append, List.mem_map, List.mem_cons, List.mem_singleton,
      List.not_mem_nil, or_false]
    constructor
    · rintro ((⟨item, _, h⟩ | h) | h | h)
      · exact absurd h.symm (hp item)
      · exact ⟨hd, h⟩
      · exact absurd h (hp _)
      · exact absurd h (hp _)
    · intro h; exact Or.inl (Or.inr h.2)
  · rw [ht]
    simp only [List.mem_append, List.mem_map, List.mem_cons, List.mem_singleton,
      List.not_mem_nil, or_false]
    constructor
    · rintro (⟨item, _, h⟩ | h | h | h)
      · exact absurd h.symm (hp item)
      · exact absurd h (hr _)
      · exact absurd h (hp _)
      · exact absurd h (hp _)
    · intro h; exact absurd h.1 hd

end DriverLemmas

/-! ## The extractor and the builder: what a rank holds -/

namespace Core

theorem copy_from_triangulation_ok {m : GlobalMesh} {n R : Nat} {cd : ConstructionData}
    (h : copy_from_triangulation m n R = .ok cd) :
    (∀ c ∈ m.cells, c.owner < n) ∧ ownedAt m R m.fineLevel ≠ [] ∧
      ancestorClosed (collected m R) = true ∧ cd = constructionData m R := by
  unfold copy_from_triangulation at h
  split at h
  · exact absurd h (by simp)
  · split at h
    · exact absurd h (by simp)
    · split at h
      · exact absurd h (by simp)
      · rename_i h1 h2 h3
        refine ⟨?_, ?_, ?_, ?_⟩
        · simpa using h1
        · simpa using h2
        · simpa using h3
        · exact (Except.ok.inj h).symm

theorem reinit_ok {cd : ConstructionData} {R : Nat} {lm : LocalMesh}
    (h : reinit cd R = .ok lm) : lm = assemble cd R ∧ haloComplete (assemble cd R) = true := by
  unfold reinit at h
  split at h
  · rename_i h1
    exact ⟨(Except.ok.inj h).symm, h1⟩
  · exact absurd h (by simp)

theorem collectAt_mem {m : GlobalMesh} {R top d : Nat} {c : Cell}
    (h : c ∈ collectAt m R top d) : c ∈ m.cells ∧ c.level + d = top := by
  cases d with
  | zero =>
    simp only [collectAt, List.mem_filter, Bool.and_eq_true, beq_iff_eq] at h
    exact ⟨h.1, h.2.1⟩
  | succ d =>
    simp only [collectAt, List.mem_filter, Bool.and_eq_true, beq_iff_eq] at h
    exact ⟨h.1, h.2.1⟩

theorem collected_mem_cells {m : GlobalMesh} {R : Nat} {c : Cell}
    (h : c ∈ collected m R) : c ∈ m.cells := by
  simp only [collected, List.mem_flatMap] at h
  obtain ⟨d, _, hd⟩ := h
  exact (collectAt_mem hd).1

theorem level_le_fineLevel {m : GlobalMesh} {c : Cell} (h : c ∈ m.cells) :
    c.level ≤ m.fineLevel := by
  unfold GlobalMesh.fineLevel
  have : ∀ (l : List Nat) (x : Nat), x ∈ l → x ≤ l.foldr max 0 := by
    intro l
    induction l with
    | nil => intro x hx; simp at hx
    | cons y ys ih =>
      intro x hx
      simp only [List.foldr_cons]
      rcases List.mem_cons.1 hx with rfl | hx
      · exact le_max_left _ _
      · exact le_trans (ih x hx) (le_max_right _ _)
  exact this _ _ (List.mem_map_of_mem _ h)

/-- A cell of the mesh that the rank owns or that lies in its halo is
collected. -/
theorem collected_of_owned_or_halo {m : GlobalMesh} {R : Nat} {c : Cell}
    (hc : c ∈ m.cells) (h : c.owner = R ∨ inHalo m R c = true) : c ∈ collected m R := by
  have hle := level_le_fineLevel hc
  simp only [collected, List.mem_flatMap, List.mem_range]
  refine ⟨m.fineLevel - c.level, by omega, ?_⟩
  have hlev : c.level + (m.fineLevel - c.level) = m.fineLevel := by omega
  rcases hd : m.fineLevel - c.level with _ | d
  · rw [hd] at hlev
    simp only [collectAt, List.mem_filter, Bool.and_eq_true, beq_iff_eq, Bool.or_eq_true]
    exact ⟨hc, by simpa using hlev, h⟩
  · rw [hd] at hlev
    simp only [collectAt, List.mem_filter, Bool.and_eq_true, beq_iff_eq, Bool.or_eq_true]
    exact ⟨hc, hlev, Or.inl h⟩

/-- The parent of a collected cell is collected, when it is a cell of the mesh
one level coarser. -/
theorem collected_parent {m : GlobalMesh} {R : Nat} {c p : Cell}
    (hc : c ∈ collected m R) (hp : p ∈ m.cells) (hpar : c.parent = some p.index)
    (hlev : p.level + 1 = c.level) : p ∈ collected m R := by
  simp only [collected, List.mem_flatMap, List.mem_range] at hc ⊢
  obtain ⟨d, hd, hcd⟩ := hc
  have hl := (collectAt_mem hcd).2
  refine ⟨d + 1, by omega, ?_⟩
  simp only [collectAt, List.mem_filter, Bool.and_eq_true, beq_iff_eq, Bool.or_eq_true,
    List.any_eq_true]
  exact ⟨hp, by omega, Or.inr ⟨c, hcd, by simpa using hpar⟩⟩

theorem cell_eq_of_index {m : GlobalMesh} (hwf : m.WellFormed) {a b : Cell}
    (ha : a ∈ m.cells) (hb : b ∈ m.cells) (h : a.index = b.index) : a = b :=
  List.inj_on_of_nodup_map hwf.1 ha hb h

/-- In a well-formed mesh the collected cells are closed under ancestors. -/
theorem ancestorClosed_collected {m : GlobalMesh} (hwf : m.WellFormed) (R : Nat) :
    ancestorClosed (collected m R) = true := by
  simp only [ancestorClosed, List.all_eq_true, Bool.or_eq_true, beq_iff_eq, List.any_eq_true,
    Bool.and_eq_true]
  intro c hc
  rcases hwf.2 c (collected_mem_cells hc) with ⟨h0, _⟩ | ⟨p, hp, hpar, hlev⟩
  · exact Or.inl h0
  · exact Or.inr ⟨p, collected_parent hc hp hpar hlev, hpar, hlev⟩

/-- A collected cell above the coarsest level has its parent among the
collected cells. -/
theorem parent_collected {m : GlobalMesh} {R : Nat}
    (hcl : ancestorClosed (collected m R) = true) {c : Cell} (hc : c ∈ collected m R)
    (hlev : c.level ≠ 0) :
    ∃ p ∈ collected m R, c.parent = some p.index ∧ p.level + 1 = c.level := by
  simp only [ancestorClosed, List.all_eq_true, Bool.or_eq_true, beq_iff_eq, List.any_eq_true,
    Bool.and_eq_true] at hcl
  rcases hcl c hc with h0 | ⟨p, hp, hpar, hl⟩
  · exact absurd h0 hlev
  · exact ⟨p, hp, hpar, hl⟩

theorem vertex_mem_referenced {cs : List Cell} {g : Cell} (hg : g ∈ cs) {v : Nat}
    (hv : v ∈ g.vertices) : v ∈ referenced cs := by
  simp only [referenced, List.mem_dedup, List.mem_flatMap]
  exact ⟨g, hg, hv⟩

/-- A referenced vertex is resolved by the per-rank table to its coordinate in
the global table. -/
theorem table_get_indexOf {α : Type} (refs : List Nat) (f : Nat → α) {v : Nat}
    (hv : v ∈ refs) : (refs.map f).get? (refs.indexOf v) = some (f v) := by
  have hlt : refs.indexOf v < refs.length := List.indexOf_lt_length.2 hv
  rw [List.get?_eq_getElem?, List.getElem?_map, List.getElem?_eq_getElem hlt,
    List.getElem_indexOf hlt]
  rfl

theorem mem_assemble_cells {m : GlobalMesh} {R : Nat} {c : LocalCell} :
    c ∈ (assemble (constructionData m R) R).cells ↔ ∃ g ∈ collected m R, c = localOf m R g := by
  simp only [assemble, constructionData, List.mem_map, localOf]
  constructor
  · rintro ⟨cdc, ⟨g, hg, rfl⟩, rfl⟩
    exact ⟨g, hg, rfl⟩
  · rintro ⟨g, hg, rfl⟩
    exact ⟨_, ⟨g, hg, rfl⟩, rfl⟩

theorem localOf_index (m : GlobalMesh) (R : Nat) (g : Cell) : (localOf m R g).index = g.index :=
  rfl

theorem localOf_shape (m : GlobalMesh) (R : Nat) (g : Cell) : (localOf m R g).shape = g.shape :=
  rfl

theorem localOf_level (m : GlobalMesh) (R : Nat) (g : Cell) : (localOf m R g).level = g.level :=
  rfl

theorem localOf_owner (m : GlobalMesh) (R : Nat) (g : Cell) : (localOf m R g).owner = g.owner :=
  rfl

theorem localOf_parent (m : GlobalMesh) (R : Nat) (g : Cell) :
    (localOf m R g).parent = g.parent :=
  rfl

theorem localOf_tag (m : GlobalMesh) (R : Nat) (g : Cell) : (localOf m R g).tag = tagOf m R g :=
  rfl

theorem localOf_vertices (m : GlobalMesh) (R : Nat) (g : Cell) :
    (localOf m R g).vertices = g.vertices.map fun v => (referenced (collected m R)).indexOf v :=
  rfl

/-- The cell found under the stable index of a collected cell is the one that
stands for it. -/
theorem find_localOf {m : GlobalMesh} (hwf : m.WellFormed) {R : Nat} {g : Cell}
    (hg : g ∈ collected m R) :
    (assemble (constructionData m R) R).find g.index = some (localOf m R g) := by
  unfold LocalMesh.find
  cases hf : (assemble (constructionData m R) R).cells.find? (fun c => c.index == g.index) with
  | none =>
    rw [List.find?_eq_none] at hf
    have := hf (localOf m R g) (mem_assemble_cells.2 ⟨g, hg, rfl⟩)
    simp [localOf_index] at this
  | some x =>
    have hx := List.find?_some hf
    obtain ⟨g', hg', rfl⟩ := mem_assemble_cells.1 (List.mem_of_find?_eq_some hf)
    simp only [localOf_index, beq_iff_eq] at hx
    rw [cell_eq_of_index hwf (collected_mem_cells hg') (collected_mem_cells hg) hx]

/-- The cell found in the global mesh under the stable index of a cell is
that cell. -/
theorem find_global {m : GlobalMesh} (hwf : m.WellFormed) {g : Cell} (hg : g ∈ m.cells) :
    m.find g.index = some g := by
  unfold GlobalMesh.find
  cases hf : m.cells.find? (fun c => c.index == g.index) with
  | none =>
    rw [List.find?_eq_none] at hf
    have := hf g hg
    simp at this
  | some x =>
    have hx := List.find?_some hf
    simp only [beq_iff_eq] at hx
    rw [cell_eq_of_index hwf (List.mem_of_find?_eq_some hf) hg hx]

/-- The vertex coordinates a rank reconstructs for a collected cell are those
of the global vertex table, in the order of the cell's vertices. -/
theorem coordinates_localOf {m : GlobalMesh} {R : Nat} {g : Cell} (hg : g ∈ collected m R) :
    (assemble (constructionData m R) R).coordinates (localOf m R g) =
      g.vertices.map fun v => some (m.vertices.getD v []) := by
  simp only [LocalMesh.coordinates, localOf_vertices, List.map_map]
  apply List.map_congr_left
  intro v hv
  exact table_get_indexOf _ _ (vertex_mem_referenced hg hv)

/-- The parent chain a rank reconstructs for a collected cell is the one of
the global mesh. -/
theorem ancestors_localOf {m : GlobalMesh} (hwf : m.WellFormed) {R : Nat}
    (hcl : ancestorClosed (collected m R) = true) :
    ∀ (k : Nat) (g : Cell), g ∈ collected m R →
      (assemble (constructionData m R) R).ancestors k (localOf m R g) = m.ancestors k g := by
  intro k
  induction k with
  | zero => intro g _; rfl
  | succ k ih =>
    intro g hg
    simp only [LocalMesh.ancestors, GlobalMesh.ancestors, localOf_parent]
    cases hpar : g.parent with
    | none => rfl
    | some p =>
      have hlev : g.level ≠ 0 := by
        rcases hwf.2 g (collected_mem_cells hg) with ⟨_, hn⟩ | ⟨q, _, _, hl⟩
        · rw [hn] at hpar; exact absurd hpar (by simp)
        · omega
      obtain ⟨gp, hgp, hp, _⟩ := parent_collected hcl hg hlev
      rw [hpar] at hp
      have hpe : p = gp.index := Option.some.inj hp
      subst hpe
      simp only [find_localOf hwf hgp, find_global hwf (collected_mem_cells hgp), ih gp hgp]

/-- The parent chain of a cell of a well-formed mesh reaches the coarsest
level: it has as many entries as the level of the cell. -/
theorem ancestors_length {m : GlobalMesh} (hwf : m.WellFormed) :
    ∀ (k : Nat) (g : Cell), g ∈ m.cells → g.level = k → (m.ancestors k g).length = k := by
  intro k
  induction k with
  | zero => intro g _ _; rfl
  | succ k ih =>
    intro g hg hl
    rcases hwf.2 g hg with ⟨h0, _⟩ | ⟨p, hp, hpar, hlev⟩
    · omega
    · simp only [GlobalMesh.ancestors, hpar, find_global hwf hp, List.length_cons]
      rw [ih p hp (by omega)]

/-- Two collected cells share a vertex of the per-rank table exactly when
they share a vertex of the global mesh. -/
theorem shares_local_iff {cs : List Cell} {g gd : Cell} (hg : g ∈ cs) (hgd : gd ∈ cs) :
    ((g.vertices.map fun v => (referenced cs).indexOf v).any fun v =>
      (gd.vertices.map fun v => (referenced cs).indexOf v).contains v) = true ↔
    g.sharesVertex gd = true := by
  have hc : ∀ (l : List Nat) (a : Nat), l.contains a = true ↔ a ∈ l :=
    fun _ _ => List.elem_iff
  simp only [Cell.sharesVertex, List.any_eq_true, hc, List.mem_map]
  constructor
  · rintro ⟨i, ⟨v, hv, rfl⟩, w, hw, hiw⟩
    have := (List.indexOf_inj (vertex_mem_referenced hgd hw) (vertex_mem_referenced hg hv)).1 hiw
    subst this
    exact ⟨w, hv, hw⟩
  · rintro ⟨v, hv, hw⟩
    exact ⟨_, ⟨v, hv, rfl⟩, v, hw, rfl⟩

/-- The neighbours a rank links to a collected cell are the other collected
cells of its level that share a vertex with it. -/
theorem mem_neighbors_localOf {m : GlobalMesh} {R : Nat} {g : Cell} (hg : g ∈ collected m R)
    (i : Nat) :
    i ∈ (localOf m R g).neighbors ↔
      ∃ gd ∈ collected m R, gd.index = i ∧ gd.level = g.level ∧ gd.index ≠ g.index ∧
        g.sharesVertex gd = true := by
  simp only [localOf, toLocalCell, constructionData, List.mem_map, List.mem_filter,
    Bool.and_eq_true, beq_iff_eq, bne_iff_ne, ne_eq]
  constructor
  · rintro ⟨d, ⟨⟨gd, hgd, rfl⟩, ⟨hl, hne⟩, hsh⟩, rfl⟩
    exact ⟨gd, hgd, rfl, hl, hne, (shares_local_iff hg hgd).1 hsh⟩
  · rintro ⟨gd, hgd, rfl, hl, hne, hsh⟩
    exact ⟨_, ⟨⟨gd, hgd, rfl⟩, ⟨hl, hne⟩, (shares_local_iff hg hgd).2 hsh⟩, rfl⟩

/-- The mesh assembled from the construction data of a rank passes the
validation of the Builder. -/
theorem haloComplete_assemble {m : GlobalMesh} (hwf : m.WellFormed) (R : Nat) :
    haloComplete (assemble (constructionData m R) R) = true := by
  simp only [haloComplete, List.all_eq_true, Bool.or_eq_true, bne_iff_ne, ne_eq]
  intro c hc
  obtain ⟨g, hg, rfl⟩ := mem_assemble_cells.1 hc
  by_cases hown : (localOf m R g).tag = Tag.owned
  · right
    intro i hi
    obtain ⟨gd, hgd, rfl, hl, _, hsh⟩ := (mem_neighbors_localOf hg i).1 hi
    rw [find_localOf hwf hgd]
    simp only [localOf_tag, bne_iff_ne, ne_eq]
    have hgo : g.owner = R := by
      rw [localOf_tag] at hown
      unfold tagOf at hown
      split at hown
      · rename_i h; simpa using h
      · split at hown <;> exact absurd hown (by simp)
    unfold tagOf
    split
    · simp
    · rename_i hno
      have hh : inHalo m R gd = true := by
        simp only [inHalo, Bool.and_eq_true, bne_iff_ne, ne_eq, List.any_eq_true]
        refine ⟨by simpa using hno, g, ?_, hsh⟩
        simp only [ownedAt, List.mem_filter, Bool.and_eq_true, beq_iff_eq]
        exact ⟨collected_mem_cells hg, hl.symm, hgo⟩
      simp [hh]
  · left
    simpa using hown

end Core

/-! ## The drivers: error handling, status line, argument order, stage order -/

section DriverClaims

variable {Tria PFT CD DH : Type}

/-- C1: in both drivers, in a run with three positional arguments, every
exception raised inside the `try` block, in particular the one raised by any
stage of `test`, is caught in `main` and not raised again: `main` returns
normally, `" failed...."` is logged and `" success...."` is not. -/
theorem C1_pipeline_errors_are_caught (lib : Library Tria PFT CD DH)
    (prog a1 a2 a3 : String) (rest : List String) (e : Exception) :
    (Event.raised e ∈ (Step3.main lib (prog :: a1 :: a2 :: a3 :: rest)).trace →
      (Step3.main lib (prog :: a1 :: a2 :: a3 :: rest)).result = .ok 0 ∧
      Event.pcout " failed...." ∈ (Step3.main lib (prog :: a1 :: a2 :: a3 :: rest)).trace ∧
      Event.pcout " success...." ∉ (Step3.main lib (prog :: a1 :: a2 :: a3 :: rest)).trace) ∧
    (Event.raised e ∈ (Step8.main lib (prog :: a1 :: a2 :: a3 :: rest)).trace →
      (Step8.main lib (prog :: a1 :: a2 :: a3 :: rest)).result = .ok 0 ∧
      Event.pcout " failed...." ∈ (Step8.main lib (prog :: a1 :: a2 :: a3 :: rest)).trace ∧
      Event.pcout " success...." ∉ (Step8.main lib (prog :: a1 :: a2 :: a3 :: rest)).trace) := by
  constructor
  · intro hr
    have hn := fun hc => (step3_main_no_raise_iff lib prog a1 a2 a3 rest).2 hc e hr
    exact ⟨(step3_main_of_args lib prog a1 a2 a3 rest).1,
      (step3_main_status lib prog a1 a2 a3 rest).2.2 hn,
      fun h => hn ((step3_main_status lib prog a1 a2 a3 rest).1.1 h)⟩
  · intro hr
    have hn := fun hc => (step8_main_no_raise_iff lib prog a1 a2 a3 rest).2 hc e hr
    exact ⟨(step8_main_of_args lib prog a1 a2 a3 rest).1,
      (step8_main_status lib prog a1 a2 a3 rest).2.2 hn,
      fun h => hn ((step8_main_status lib prog a1 a2 a3 rest).1.1 h)⟩

/-- C1, on a run of each driver in which `reinit` throws. -/
theorem C1_pipeline_errors_are_caught_witness :
    (Event.raised (.other "reinit")
        ∈ (Step3.main (sampleLibrary 6 4 0) ["step-3", "2", "1", "2"]).trace ∧
      (Step3.main (sampleLibrary 6 4 0) ["step-3", "2", "1", "2"]).result = .ok 0 ∧
      Event.pcout " failed...."
        ∈ (Step3.main (sampleLibrary 6 4 0) ["step-3", "2", "1", "2"]).trace ∧
      Event.pcout " success...."
        ∉ (Step3.main (sampleLibrary 6 4 0) ["step-3", "2", "1", "2"]).trace) ∧
    (Event.raised (.other "reinit")
        ∈ (Step8.main (sampleLibrary 6 4 0) ["step-8", "2", "1", "2"]).trace ∧
      (Step8.main (sampleLibrary 6 4 0) ["step-8", "2", "1", "2"]).result = .ok 0 ∧
      Event.pcout " failed...."
        ∈ (Step8.main (sampleLibrary 6 4 0) ["step-8", "2", "1", "2"]).trace ∧
      Event.pcout " success...."
        ∉ (Step8.main (sampleLibrary 6 4 0) ["step-8", "2", "1", "2"]).trace) :=
  ⟨⟨by decide, (C1_pipeline_errors_are_caught (sampleLibrary 6 4 0) "step-3" "2" "1" "2" []
      (.other "reinit")).1 (by decide)⟩,
   ⟨by decide, (C1_pipeline_errors_are_caught (sampleLibrary 6 4 0) "step-8" "2" "1" "2" []
      (.other "reinit")).2 (by decide)⟩⟩

/-- C2: in both drivers, when the first positional argument parses to a
dimension greater than 3 or less than 1, the `try` block leaves by the
driver's own invalid-argument exception, no library call is made (the trace
holds the header, that exception and the failure report only), the run ends
by logging `" failed...."`, and `main` returns. -/
theorem C2_unsupported_dimension_fails_fast (lib : Library Tria PFT CD DH)
    (prog a1 a2 a3 : String) (rest : List String)
    (hdim : lib.atoi a1 > 3 ∨ lib.atoi a1 < 1) :
    ((Step3.try_block lib (lib.atoi a1) (lib.atoi a2) (lib.atoi a3)).result =
        .error (.ExcMessage "Only working for dimensions 2 and 3!") ∧
      (Step3.main lib (prog :: a1 :: a2 :: a3 :: rest)).trace =
        (header "Run step-3:" lib.n_mpi_processes (lib.atoi a1) (lib.atoi a2)
            (lib.atoi a3)).map Event.pcout ++
          [Event.raised (.ExcMessage "Only working for dimensions 2 and 3!"),
           Event.pcout " failed....", Event.pcout endl] ∧
      (Step3.main lib (prog :: a1 :: a2 :: a3 :: rest)).result = .ok 0) ∧
    ((Step8.try_block lib (lib.atoi a1) (lib.atoi a2) (lib.atoi a3)).result =
        .error (.ExcMessage "Only working for dimensions 2 and 3!") ∧
      (Step8.main lib (prog :: a1 :: a2 :: a3 :: rest)).trace =
        (header "Run step-8: " lib.n_mpi_processes (lib.atoi a1) (lib.atoi a2)
            (lib.atoi a3)).map Event.pcout ++
          [Event.raised (.ExcMessage "Only working for dimensions 2 and 3!"),
           Event.pcout " failed....", Event.pcout endl] ∧
      (Step8.main lib (prog :: a1 :: a2 :: a3 :: rest)).result = .ok 0) := by
  have h3 : ¬ (lib.atoi a1 = 1 ∨ lib.atoi a1 = 2 ∨ lib.atoi a1 = 3) := by omega
  have h8 : ¬ (lib.atoi a1 = 2 ∨ lib.atoi a1 = 3) := by omega
  refine ⟨⟨(step3_try_block_rejected lib _ _ _ h3).1, ?_,
    (step3_main_of_args lib prog a1 a2 a3 rest).1⟩,
    ⟨(step8_try_block_rejected lib _ _ _ h8).1, ?_,
    (step8_main_of_args lib prog a1 a2 a3 rest).1⟩⟩
  · rcases step3_main_cases lib prog a1 a2 a3 rest with ⟨hd, _⟩ | ⟨hd, _⟩ | ⟨_, ht⟩
    · exact absurd hd h3
    · exact absurd hd h3
    · exact ht
  · rcases step8_main_cases lib prog a1 a2 a3 rest with ⟨hd, _⟩ | ⟨hd, _⟩ | ⟨_, ht⟩
    · exact absurd hd h8
    · exact absurd hd h8
    · exact ht

/-- C2, on the run of each driver with dimension 4. -/
theorem C2_unsupported_dimension_fails_fast_witness :
    (atoi "4" > 3 ∨ atoi "4" < 1) ∧
    (Step3.main (sampleLibrary 0 4 0) ["step-3", "4", "1", "2"]).trace =
      (header "Run step-3:" 4 4 1 2).map Event.pcout ++
        [Event.raised (.ExcMessage "Only working for dimensions 2 and 3!"),
         Event.pcout " failed....", Event.pcout endl] ∧
    (Step8.main (sampleLibrary 0 4 0) ["step-8", "4", "1", "2"]).trace =
      (header "Run step-8: " 4 4 1 2).map Event.pcout ++
        [Event.raised (.ExcMessage "Only working for dimensions 2 and 3!"),
         Event.pcout " failed....", Event.pcout endl] :=
  ⟨by decide,
   (C2_unsupported_dimension_fails_fast (sampleLibrary 0 4 0) "step-3" "4" "1" "2" []
      (by decide)).1.2.1,
   (C2_unsupported_dimension_fails_fast (sampleLibrary 0 4 0) "step-8" "4" "1" "2" []
      (by decide)).2.2.1⟩

/-- C3, as stated, fails: with two positional arguments the exception of the
argument check leaves `main` (no normal return) and nothing is logged, in
step-3 and in step-8. -/
theorem C3_counterexample :
    ["step-3", "2", "1"].length ≤ 3 ∧
    (Step3.main (sampleLibrary 0 4 0) ["step-3", "2", "1"]).result =
      .error (.ExcMessage "You have not provided two command-line arguments.") ∧
    Event.pcout " failed...." ∉ (Step3.main (sampleLibrary 0 4 0) ["step-3", "2", "1"]).trace ∧
    (Step8.main (sampleLibrary 0 4 0) ["step-8", "2", "1"]).result =
      .error (.ExcMessage "You have not provided two command-line arguments.") ∧
    Event.pcout " failed...." ∉ (Step8.main (sampleLibrary 0 4 0) ["step-8", "2", "1"]).trace :=
  ⟨by decide, rfl, by decide, rfl, by decide⟩

/-- C3, amended: in both drivers, with fewer than three positional arguments
(`argc <= 3`) the argument check raises the invalid-argument exception before
the `try` block; no pipeline stage is executed and nothing is streamed into
`pcout` (the trace holds that exception only), and the exception is not
caught: it leaves `main`. -/
theorem C3_missing_arguments_not_caught (lib : Library Tria PFT CD DH) (argv : List String)
    (hargc : argv.length ≤ 3) :
    Step3.main lib argv =
      ⟨[Event.raised (.ExcMessage "You have not provided two command-line arguments.")],
       .error (.ExcMessage "You have not provided two command-line arguments.")⟩ ∧
    Step8.main lib argv =
      ⟨[Event.raised (.ExcMessage "You have not provided two command-line arguments.")],
       .error (.ExcMessage "You have not provided two command-line arguments.")⟩ :=
  ⟨step3_main_of_few_args lib argv hargc, step8_main_of_few_args lib argv hargc⟩

/-- C3 amended, on a run with one positional argument. -/
theorem C3_missing_arguments_not_caught_witness :
    ["driver", "2"].length ≤ 3 ∧
    Step3.main (sampleLibrary 0 4 0) ["driver", "2"] =
      ⟨[Event.raised (.ExcMessage "You have not provided two command-line arguments.")],
       .error (.ExcMessage "You have not provided two command-line arguments.")⟩ ∧
    Step8.main (sampleLibrary 0 4 0) ["driver", "2"] =
      ⟨[Event.raised (.ExcMessage "You have not provided two command-line arguments.")],
       .error (.ExcMessage "You have not provided two command-line arguments.")⟩ :=
  ⟨by decide, C3_missing_arguments_not_caught (sampleLibrary 0 4 0) ["driver", "2"] (by decide)⟩

/-- C4: in both drivers, in a run with three positional arguments the items
streamed into `pcout` are the run header (p, d, r, s in that order, read from
the number of processes and the three arguments) followed by exactly one
status item and `endl`; exactly one of the two statuses is logged; no item
before `endl` holds a line end; and on rank 0 the text that reaches the
output is the concatenation of these items. -/
theorem C4_single_status_line (lib : Library Tria PFT CD DH)
    (prog a1 a2 a3 : String) (rest : List String) :
    (∃ status, (status = " success...." ∨ status = " failed....") ∧
      pcoutItems (Step3.main lib (prog :: a1 :: a2 :: a3 :: rest)).trace =
        header "Run step-3:" lib.n_mpi_processes (lib.atoi a1) (lib.atoi a2) (lib.atoi a3)
          ++ [status, "\n"] ∧
      (Event.pcout " success...." ∈ (Step3.main lib (prog :: a1 :: a2 :: a3 :: rest)).trace ↔
        Event.pcout " failed...." ∉ (Step3.main lib (prog :: a1 :: a2 :: a3 :: rest)).trace) ∧
      (∀ item ∈ header "Run step-3:" lib.n_mpi_processes (lib.atoi a1) (lib.atoi a2)
          (lib.atoi a3) ++ [status], '\n' ∉ item.data) ∧
      (lib.this_mpi_process = 0 →
        stdout lib (Step3.main lib (prog :: a1 :: a2 :: a3 :: rest)).trace =
          String.join (header "Run step-3:" lib.n_mpi_processes (lib.atoi a1) (lib.atoi a2)
            (lib.atoi a3) ++ [status, "\n"]))) ∧
    (∃ status, (status = " success...." ∨ status = " failed....") ∧
      pcoutItems (Step8.main lib (prog :: a1 :: a2 :: a3 :: rest)).trace =
        header "Run step-8: " lib.n_mpi_processes (lib.atoi a1) (lib.atoi a2) (lib.atoi a3)
          ++ [status, "\n"] ∧
      (Event.pcout " success...." ∈ (Step8.main lib (prog :: a1 :: a2 :: a3 :: rest)).trace ↔
        Event.pcout " failed...." ∉ (Step8.main lib (prog :: a1 :: a2 :: a3 :: rest)).trace) ∧
      (∀ item ∈ header "Run step-8: " lib.n_mpi_processes (lib.atoi a1) (lib.atoi a2)
          (lib.atoi a3) ++ [status], '\n' ∉ item.data) ∧
      (lib.this_mpi_process = 0 →
        stdout lib (Step8.main lib (prog :: a1 :: a2 :: a3 :: rest)).trace =
          String.join (header "Run step-8: " lib.n_mpi_processes (lib.atoi a1) (lib.atoi a2)
            (lib.atoi a3) ++ [status, "\n"]))) := by
  have hnl : ∀ (title : String), '\n' ∉ title.data → ∀ (status : String),
      (status = " success...." ∨ status = " failed....") →
      ∀ item ∈ header title lib.n_mpi_processes (lib.atoi a1) (lib.atoi a2) (lib.atoi a3)
        ++ [status], '\n' ∉ item.data := by
    intro title ht status hs item hitem
    rcases List.mem_append.1 hitem with h | h
    · exact header_no_newline title _ _ _ _ ht item h
    · rw [List.mem_singleton.1 h]
      rcases hs with rfl | rfl <;> decide
  constructor
  · have hst := step3_main_status lib prog a1 a2 a3 rest
    have hboth : Event.pcout " success...."
          ∈ (Step3.main lib (prog :: a1 :: a2 :: a3 :: rest)).trace ↔
        Event.pcout " failed...." ∉ (Step3.main lib (prog :: a1 :: a2 :: a3 :: rest)).trace := by
      rw [hst.1, hst.2, not_not]
    rcases step3_main_pcoutItems lib prog a1 a2 a3 rest with ⟨_, hi⟩ | ⟨_, hi⟩
    · exact ⟨" success....", Or.inl rfl, hi, hboth, hnl _ (by decide) _ (Or.inl rfl),
        fun h0 => by simp only [stdout, h0, if_true, hi]; rfl⟩
    · exact ⟨" failed....", Or.inr rfl, hi, hboth, hnl _ (by decide) _ (Or.inr rfl),
        fun h0 => by simp only [stdout, h0, if_true, hi]; rfl⟩
  · have hst := step8_main_status lib prog a1 a2 a3 rest
    have hboth : Event.pcout " success...."
          ∈ (Step8.main lib (prog :: a1 :: a2 :: a3 :: rest)).trace ↔
        Event.pcout " failed...." ∉ (Step8.main lib (prog :: a1 :: a2 :: a3 :: rest)).trace := by
      rw [hst.1, hst.2, not_not]
    rcases step8_main_pcoutItems lib prog a1 a2 a3 rest with ⟨_, hi⟩ | ⟨_, hi⟩
    · exact ⟨" success....", Or.inl rfl, hi, hboth, hnl _ (by decide) _ (Or.inl rfl),
        fun h0 => by simp only [stdout, h0, if_true, hi]; rfl⟩
    · exact ⟨" failed....", Or.inr rfl, hi, hboth, hnl _ (by decide) _ (Or.inr rfl),
        fun h0 => by simp only [stdout, h0, if_true, hi]; rfl⟩

/-- C4, on a run of step-3 on rank 0 in which every stage returns. -/
theorem C4_single_status_line_witness :
    ∃ status, (status = " success...." ∨ status = " failed....") ∧
      stdout (sampleLibrary 0 4 0)
          (Step3.main (sampleLibrary 0 4 0) ["step-3", "2", "1", "2"]).trace =
        String.join (header "Run step-3:" 4 2 1 2 ++ [status, "\n"]) := by
  obtain ⟨status, hs, _, _, _, hout⟩ :=
    (C4_single_status_line (sampleLibrary 0 4 0) "step-3" "2" "1" "2" []).1
  exact ⟨status, hs, hout rfl⟩

/-- C5: in both drivers the three positional arguments are read as
(dimension, refinement count, subdivision count): every call of
`subdivided_hyper_cube` in a run is on the triangulation of dimension
`atoi(argv[1])` with `atoi(argv[3])` repetitions, every call of
`refine_global` is on the mesh that call returned with `atoi(argv[2])` levels,
and for a dispatched dimension these calls are made (the second one when the
first returns). -/
theorem C5_argument_order (lib : Library Tria PFT CD DH)
    (prog a1 a2 a3 : String) (rest : List String) :
    ((∀ tria n, Event.subdivided_hyper_cube tria n
          ∈ (Step3.main lib (prog :: a1 :: a2 :: a3 :: rest)).trace →
        tria = lib.new_Triangulation (lib.atoi a1).toNat ∧ n = toUnsigned (lib.atoi a3)) ∧
      (∀ tria n, Event.refine_global tria n
          ∈ (Step3.main lib (prog :: a1 :: a2 :: a3 :: rest)).trace →
        lib.subdivided_hyper_cube (lib.new_Triangulation (lib.atoi a1).toNat)
            (toUnsigned (lib.atoi a3)) = .ok tria ∧
          n = toUnsigned (lib.atoi a2)) ∧
      ((lib.atoi a1 = 1 ∨ lib.atoi a1 = 2 ∨ lib.atoi a1 = 3) →
        Event.subdivided_hyper_cube (lib.new_Triangulation (lib.atoi a1).toNat)
            (toUnsigned (lib.atoi a3))
          ∈ (Step3.main lib (prog :: a1 :: a2 :: a3 :: rest)).trace ∧
        ∀ t1, lib.subdivided_hyper_cube (lib.new_Triangulation (lib.atoi a1).toNat)
            (toUnsigned (lib.atoi a3)) = .ok t1 →
          Event.refine_global t1 (toUnsigned (lib.atoi a2))
            ∈ (Step3.main lib (prog :: a1 :: a2 :: a3 :: rest)).trace)) ∧
    ((∀ tria n, Event.subdivided_hyper_cube tria n
          ∈ (Step8.main lib (prog :: a1 :: a2 :: a3 :: rest)).trace →
        tria = lib.new_distributed_Triangulation (lib.atoi a1).toNat ∧
          n = toUnsigned (lib.atoi a3)) ∧
      (∀ tria n, Event.refine_global tria n
          ∈ (Step8.main lib (prog :: a1 :: a2 :: a3 :: rest)).trace →
        lib.subdivided_hyper_cube (lib.new_distributed_Triangulation (lib.atoi a1).toNat)
            (toUnsigned (lib.atoi a3)) = .ok tria ∧
          n = toUnsigned (lib.atoi a2)) ∧
      ((lib.atoi a1 = 2 ∨ lib.atoi a1 = 3) →
        Event.subdivided_hyper_cube (lib.new_distributed_Triangulation (lib.atoi a1).toNat)
            (toUnsigned (lib.atoi a3))
          ∈ (Step8.main lib (prog :: a1 :: a2 :: a3 :: rest)).trace ∧
        ∀ t1, lib.subdivided_hyper_cube (lib.new_distributed_Triangulation (lib.atoi a1).toNat)
            (toUnsigned (lib.atoi a3)) = .ok t1 →
          Event.refine_global t1 (toUnsigned (lib.atoi a2))
            ∈ (Step8.main lib (prog :: a1 :: a2 :: a3 :: rest)).trace)) := by
  obtain ⟨g1, g2, g3, g4⟩ := step3_test_args lib (lib.atoi a1).toNat (lib.atoi a2) (lib.atoi a3)
  obtain ⟨k1, k2, k3, k4⟩ := step8_test_args lib (lib.atoi a1).toNat (lib.atoi a2) (lib.atoi a3)
  refine ⟨⟨?_, ?_, ?_⟩, ⟨?_, ?_, ?_⟩⟩
  · intro tria n h
    exact g1 tria n ((step3_mem_main_trace_call lib prog a1 a2 a3 rest
      (Event.subdivided_hyper_cube tria n) rfl).1 h).2
  · intro tria n h
    exact g2 tria n ((step3_mem_main_trace_call lib prog a1 a2 a3 rest
      (Event.refine_global tria n) rfl).1 h).2
  · intro hd
    exact ⟨(step3_mem_main_trace_call lib prog a1 a2 a3 rest
        (Event.subdivided_hyper_cube _ _) rfl).2 ⟨hd, g3⟩,
      fun t1 h => (step3_mem_main_trace_call lib prog a1 a2 a3 rest
        (Event.refine_global t1 _) rfl).2 ⟨hd, g4 t1 h⟩⟩
  · intro tria n h
    exact k1 tria n ((step8_mem_main_trace_call lib prog a1 a2 a3 rest
      (Event.subdivided_hyper_cube tria n) rfl).1 h).2
  · intro tria n h
    exact k2 tria n ((step8_mem_main_trace_call lib prog a1 a2 a3 rest
      (Event.refine_global tria n) rfl).1 h).2
  · intro hd
    exact ⟨(step8_mem_main_trace_call lib prog a1 a2 a3 rest
        (Event.subdivided_hyper_cube _ _) rfl).2 ⟨hd, k3⟩,
      fun t1 h => (step8_mem_main_trace_call lib prog a1 a2 a3 rest
        (Event.refine_global t1 _) rfl).2 ⟨hd, k4 t1 h⟩⟩

/-- C5, on the run `step-3 2 5 7`: two dimensions, 7 subdivisions, then 5
refinement levels. -/
theorem C5_argument_order_witness :
    Event.subdivided_hyper_cube [0, 2] 7
      ∈ (Step3.main (sampleLibrary 0 4 0) ["step-3", "2", "5", "7"]).trace ∧
    Event.refine_global [0, 2, 10, 7] 5
      ∈ (Step3.main (sampleLibrary 0 4 0) ["step-3", "2", "5", "7"]).trace := by
  obtain ⟨h1, h2⟩ :=
    (C5_argument_order (sampleLibrary 0 4 0) "step-3" "2" "5" "7" []).1.2.2 (by decide)
  exact ⟨h1, h2 [0, 2, 10, 7] rfl⟩

/-- C6: a step-3 pipeline that completes invoked its stages once each, in the
order mesh generation, global refinement, fine-level partitioning,
multigrid-level partitioning, extraction, build, fine-level DoF distribution,
multigrid DoF distribution, diagnostics output (the source mesh, then the
rebuilt mesh); every stage works on what the stage before it returned:
`reinit` receives the value `copy_from_triangulation` returned, and the DoF
handler is the one of the mesh `reinit` returned. -/
theorem C6_step3_stage_order (lib : Library Tria PFT CD DH) (dim : Nat) (r s : Int)
    (hok : (Step3.test lib dim r s).result = .ok ()) :
    ∃ t1 t2 t3 t4 cd pft dh1 dh2,
      lib.subdivided_hyper_cube (lib.new_Triangulation dim) (toUnsigned s) = .ok t1 ∧
      lib.refine_global t1 (toUnsigned r) = .ok t2 ∧
      lib.partition_triangulation lib.n_mpi_processes t2 = .ok t3 ∧
      lib.partition_multigrid_levels t3 = .ok t4 ∧
      lib.copy_from_triangulation t4 (lib.new_fullydistributed_Triangulation dim) = .ok cd ∧
      lib.reinit (lib.new_fullydistributed_Triangulation dim) cd = .ok pft ∧
      lib.distribute_dofs (lib.new_DoFHandler pft) 2 = .ok dh1 ∧
      lib.distribute_mg_dofs dh1 = .ok dh2 ∧
      lib.write_mesh_tria t4 "trid_pdt" true true = .ok () ∧
      lib.write_mesh_pft pft "trid_pft" true true = .ok () ∧
      (Step3.test lib dim r s).trace =
        [.subdivided_hyper_cube (lib.new_Triangulation dim) (toUnsigned s),
         .refine_global t1 (toUnsigned r),
         .partition_triangulation lib.n_mpi_processes t2,
         .partition_multigrid_levels t3,
         .copy_from_triangulation t4 (lib.new_fullydistributed_Triangulation dim),
         .reinit (lib.new_fullydistributed_Triangulation dim) cd,
         .distribute_dofs (lib.new_DoFHandler pft) 2,
         .distribute_mg_dofs dh1,
         .write_mesh_tria t4 "trid_pdt" true true,
         .write_mesh_pft pft "trid_pft" true true] :=
  step3_test_ok_chain lib dim r s hok

/-- C6, on the pipeline in two dimensions with one refinement and two
subdivisions, every stage returning. -/
theorem C6_step3_stage_order_witness :
    (Step3.test (sampleLibrary 0 4 0) 2 1 2).result = .ok () ∧
    ∃ t1 t2 t3 t4 cd pft dh1,
      (Step3.test (sampleLibrary 0 4 0) 2 1 2).trace =
        [.subdivided_hyper_cube [0, 2] 2,
         .refine_global t1 1,
         .partition_triangulation 4 t2,
         .partition_multigrid_levels t3,
         .copy_from_triangulation t4 [2, 2],
         .reinit [2, 2] cd,
         .distribute_dofs (3 :: pft) 2,
         .distribute_mg_dofs dh1,
         .write_mesh_tria t4 "trid_pdt" true true,
         .write_mesh_pft pft "trid_pft" true true] := by
  obtain ⟨t1, t2, t3, t4, cd, pft, dh1, _, _, _, _, _, _, _, _, _, _, _, h⟩ :=
    C6_step3_stage_order (sampleLibrary 0 4 0) 2 1 2 rfl
  exact ⟨rfl, t1, t2, t3, t4, cd, pft, dh1, h⟩

/-- C9: in both drivers, in a run with three positional arguments,
`" success...."` is logged exactly when the dimension is dispatched and no
stage of `test` raises; when it is logged, `distribute_dofs` with the degree-2
element and `distribute_mg_dofs` were called before it on the mesh `reinit`
returned, and both returned; and in a run in which `distribute_dofs` or
`distribute_mg_dofs` raises, success is not logged and no mesh is written. -/
theorem C9_success_iff_pipeline_completes (lib : Library Tria PFT CD DH)
    (prog a1 a2 a3 : String) (rest : List String) :
    ((Event.pcout " success...." ∈ (Step3.main lib (prog :: a1 :: a2 :: a3 :: rest)).trace ↔
        ((lib.atoi a1 = 1 ∨ lib.atoi a1 = 2 ∨ lib.atoi a1 = 3) ∧
          ∀ e, Event.raised e
            ∉ (Step3.test lib (lib.atoi a1).toNat (lib.atoi a2) (lib.atoi a3)).trace)) ∧
      (Event.pcout " success...." ∈ (Step3.main lib (prog :: a1 :: a2 :: a3 :: rest)).trace →
        ∃ pre post cd pft dh1 dh2,
          lib.reinit (lib.new_fullydistributed_Triangulation (lib.atoi a1).toNat) cd
            = .ok pft ∧
          lib.distribute_dofs (lib.new_DoFHandler pft) 2 = .ok dh1 ∧
          lib.distribute_mg_dofs dh1 = .ok dh2 ∧
          (Step3.main lib (prog :: a1 :: a2 :: a3 :: rest)).trace =
            pre ++ [Event.distribute_dofs (lib.new_DoFHandler pft) 2,
              Event.distribute_mg_dofs dh1] ++ post ∧
          Event.pcout " success...." ∉ pre) ∧
      (∀ dh k e,
        Event.distribute_dofs dh k ∈ (Step3.main lib (prog :: a1 :: a2 :: a3 :: rest)).trace →
        lib.distribute_dofs dh k = .error e →
        Event.pcout " success...." ∉ (Step3.main lib (prog :: a1 :: a2 :: a3 :: rest)).trace ∧
        (∀ t f a b, Event.write_mesh_tria t f a b
          ∉ (Step3.main lib (prog :: a1 :: a2 :: a3 :: rest)).trace) ∧
        (∀ t f a b, Event.write_mesh_pft t f a b
          ∉ (Step3.main lib (prog :: a1 :: a2 :: a3 :: rest)).trace)) ∧
      (∀ dh e,
        Event.distribute_mg_dofs dh ∈ (Step3.main lib (prog :: a1 :: a2 :: a3 :: rest)).trace →
        lib.distribute_mg_dofs dh = .error e →
        Event.pcout " success...." ∉ (Step3.main lib (prog :: a1 :: a2 :: a3 :: rest)).trace ∧
        (∀ t f a b, Event.write_mesh_tria t f a b
          ∉ (Step3.main lib (prog :: a1 :: a2 :: a3 :: rest)).trace) ∧
        (∀ t f a b, Event.write_mesh_pft t f a b
          ∉ (Step3.main lib (prog :: a1 :: a2 :: a3 :: rest)).trace))) ∧
    ((Event.pcout " success...." ∈ (Step8.main lib (prog :: a1 :: a2 :: a3 :: rest)).trace ↔
        ((lib.atoi a1 = 2 ∨ lib.atoi a1 = 3) ∧
          ∀ e, Event.raised e
            ∉ (Step8.test lib (lib.atoi a1).toNat (lib.atoi a2) (lib.atoi a3)).trace)) ∧
      (Event.pcout " success...." ∈ (Step8.main lib (prog :: a1 :: a2 :: a3 :: rest)).trace →
        ∃ pre post cd pft dh1 dh2,
          lib.reinit (lib.new_fullydistributed_Triangulation (lib.atoi a1).toNat) cd
            = .ok pft ∧
          lib.distribute_dofs (lib.new_DoFHandler pft) 2 = .ok dh1 ∧
          lib.distribute_mg_dofs dh1 = .ok dh2 ∧
          (Step8.main lib (prog :: a1 :: a2 :: a3 :: rest)).trace =
            pre ++ [Event.distribute_dofs (lib.new_DoFHandler pft) 2,
              Event.distribute_mg_dofs dh1] ++ post ∧
          Event.pcout " success...." ∉ pre) ∧
      (∀ dh k e,
        Event.distribute_dofs dh k ∈ (Step8.main lib (prog :: a1 :: a2 :: a3 :: rest)).trace →
        lib.distribute_dofs dh k = .error e →
        Event.pcout " success...." ∉ (Step8.main lib (prog :: a1 :: a2 :: a3 :: rest)).trace ∧
        (∀ t f a b, Event.write_mesh_tria t f a b
          ∉ (Step8.main lib (prog :: a1 :: a2 :: a3 :: rest)).trace) ∧
        (∀ t f a b, Event.write_mesh_pft t f a b
          ∉ (Step8.main lib (prog :: a1 :: a2 :: a3 :: rest)).trace)) ∧
      (∀ dh e,
        Event.distribute_mg_dofs dh ∈ (Step8.main lib (prog :: a1 :: a2 :: a3 :: rest)).trace →
        lib.distribute_mg_dofs dh = .error e →
        Event.pcout " success...." ∉ (Step8.main lib (prog :: a1 :: a2 :: a3 :: rest)).trace ∧
        (∀ t f a b, Event.write_mesh_tria t f a b
          ∉ (Step8.main lib (prog :: a1 :: a2 :: a3 :: rest)).trace) ∧
        (∀ t f a b, Event.write_mesh_pft t f a b
          ∉ (Step8.main lib (prog :: a1 :: a2 :: a3 :: rest)).trace))) := by
  constructor
  · have hst := (step3_main_status lib prog a1 a2 a3 rest).1
    have hno : ∀ e', (Step3.test lib (lib.atoi a1).toNat (lib.atoi a2) (lib.atoi a3)).result
          = .error e' →
        Event.pcout " success...." ∉ (Step3.main lib (prog :: a1 :: a2 :: a3 :: rest)).trace := by
      intro e' he hs
      have := (hst.1 hs).2
      rw [he] at this
      exact absurd this (by simp)
    have hw : ∀ ev : Event Tria PFT CD DH, ev.isCall = true →
        ev ∉ (Step3.test lib (lib.atoi a1).toNat (lib.atoi a2) (lib.atoi a3)).trace →
        ev ∉ (Step3.main lib (prog :: a1 :: a2 :: a3 :: rest)).trace := by
      intro ev hev hn hm
      exact hn ((step3_mem_main_trace_call lib prog a1 a2 a3 rest ev hev).1 hm).2
    refine ⟨?_, ?_, ?_, ?_⟩
    · rw [hst, step3_test_ok_iff_no_raise]
    · intro hs
      obtain ⟨hd, hok⟩ := hst.1 hs
      rcases step3_main_cases lib prog a1 a2 a3 rest with ⟨_, _, ht⟩ | ⟨_, ⟨e, he⟩, _⟩ | ⟨hd', _⟩
      · obtain ⟨t1, t2, t3, t4, cd, pft, dh1, dh2, _, _, _, _, _, g6, g7, g8, _, _, htr⟩ :=
          step3_test_ok_chain lib (lib.atoi a1).toNat (lib.atoi a2) (lib.atoi a3) hok
        rw [htr] at ht
        have hh := (header_no_status "Run step-3:" lib.n_mpi_processes (lib.atoi a1)
          (lib.atoi a2) (lib.atoi a3) ⟨by decide, by decide⟩).1
        refine ⟨(header "Run step-3:" lib.n_mpi_processes (lib.atoi a1) (lib.atoi a2)
            (lib.atoi a3)).map Event.pcout ++ [Event.subdivided_hyper_cube (lib.new_Triangulation (lib.atoi a1).toNat)
                (toUnsigned (lib.atoi a3)),
              Event.refine_global t1 (toUnsigned (lib.atoi a2)),
              Event.partition_triangulation lib.n_mpi_processes t2,
              Event.partition_multigrid_levels t3,
              Event.copy_from_triangulation t4
                (lib.new_fullydistributed_Triangulation (lib.atoi a1).toNat),
              Event.reinit (lib.new_fullydistributed_Triangulation (lib.atoi a1).toNat) cd],
          [Event.write_mesh_tria t4 "trid_pdt" true true,
           Event.write_mesh_pft pft "trid_pft" true true,
           Event.pcout " success....", Event.pcout endl],
          cd, pft, dh1, dh2, g6, g7, g8, ?_, ?_⟩
        · rw [ht]; simp
        · simp [hh]
      · rw [he] at hok; exact absurd hok (by simp)
      · exact absurd hd hd'
    · intro dh k e h1 h2
      obtain ⟨_, hm⟩ := (step3_mem_main_trace_call lib prog a1 a2 a3 rest
        (Event.distribute_dofs dh k) rfl).1 h1
      obtain ⟨he, w1, w2⟩ := step3_test_dofs_error lib _ _ _ dh k e hm h2
      exact ⟨hno e he, fun t f a b => hw _ rfl (w1 t f a b), fun t f a b => hw _ rfl (w2 t f a b)⟩
    · intro dh e h1 h2
      obtain ⟨_, hm⟩ := (step3_mem_main_trace_call lib prog a1 a2 a3 rest
        (Event.distribute_mg_dofs dh) rfl).1 h1
      obtain ⟨he, w1, w2⟩ := step3_test_mg_dofs_error lib _ _ _ dh e hm h2
      exact ⟨hno e he, fun t f a b => hw _ rfl (w1 t f a b), fun t f a b => hw _ rfl (w2 t f a b)⟩
  · have hst := (step8_main_status lib prog a1 a2 a3 rest).1
    have hno : ∀ e', (Step8.test lib (lib.atoi a1).toNat (lib.atoi a2) (lib.atoi a3)).result
          = .error e' →
        Event.pcout " success...." ∉ (Step8.main lib (prog :: a1 :: a2 :: a3 :: rest)).trace := by
      intro e' he hs
      have := (hst.1 hs).2
      rw [he] at this
      exact absurd this (by simp)
    have hw : ∀ ev : Event Tria PFT CD DH, ev.isCall = true →
        ev ∉ (Step8.test lib (lib.atoi a1).toNat (lib.atoi a2) (lib.atoi a3)).trace →
        ev ∉ (Step8.main lib (prog :: a1 :: a2 :: a3 :: rest)).trace := by
      intro ev hev hn hm
      exact hn ((step8_mem_main_trace_call lib prog a1 a2 a3 rest ev hev).1 hm).2
    refine ⟨?_, ?_, ?_, ?_⟩
    · rw [hst, step8_test_ok_iff_no_raise]
    · intro hs
      obtain ⟨hd, hok⟩ := hst.1 hs
      rcases step8_main_cases lib prog a1 a2 a3 rest with ⟨_, _, ht⟩ | ⟨_, ⟨e, he⟩, _⟩ | ⟨hd', _⟩
      · obtain ⟨t1, t2, cd, pft, dh1, dh2, _, _, _, g6, g7, g8, _, _, htr⟩ :=
          step8_test_ok_chain lib (lib.atoi a1).toNat (lib.atoi a2) (lib.atoi a3) hok
        rw [htr] at ht
        have hh := (header_no_status "Run step-8: " lib.n_mpi_processes (lib.atoi a1)
          (lib.atoi a2) (lib.atoi a3) ⟨by decide, by decide⟩).1
        refine ⟨(header "Run step-8: " lib.n_mpi_processes (lib.atoi a1) (lib.atoi a2)
            (lib.atoi a3)).map Event.pcout ++ [Event.subdivided_hyper_cube
                (lib.new_distributed_Triangulation (lib.atoi a1).toNat)
                (toUnsigned (lib.atoi a3)),
              Event.refine_global t1 (toUnsigned (lib.atoi a2)),
              Event.copy_from_triangulation t2
                (lib.new_fullydistributed_Triangulation (lib.atoi a1).toNat),
              Event.reinit (lib.new_fullydistributed_Triangulation (lib.atoi a1).toNat) cd],
          [Event.write_mesh_tria t2 "trid_pdt" true true,
           Event.write_mesh_pft pft "trid_pft" true true,
           Event.pcout " success....", Event.pcout endl],
          cd, pft, dh1, dh2, g6, g7, g8, ?_, ?_⟩
        · rw [ht]; simp
        · simp [hh]
      · rw [he] at hok; exact absurd hok (by simp)
      · exact absurd hd hd'
    · intro dh k e h1 h2
      obtain ⟨_, hm⟩ := (step8_mem_main_trace_call lib prog a1 a2 a3 rest
        (Event.distribute_dofs dh k) rfl).1 h1
      obtain ⟨he, w1, w2⟩ := step8_test_dofs_error lib _ _ _ dh k e hm h2
      exact ⟨hno e he, fun t f a b => hw _ rfl (w1 t f a b), fun t f a b => hw _ rfl (w2 t f a b)⟩
    · intro dh e h1 h2
      obtain ⟨_, hm⟩ := (step8_mem_main_trace_call lib prog a1 a2 a3 rest
        (Event.distribute_mg_dofs dh) rfl).1 h1
      obtain ⟨he, w1, w2⟩ := step8_test_mg_dofs_error lib _ _ _ dh e hm h2
      exact ⟨hno e he, fun t f a b => hw _ rfl (w1 t f a b), fun t f a b => hw _ rfl (w2 t f a b)⟩

/-- C9, on a run of step-3 in which `distribute_dofs` throws. -/
theorem C9_success_iff_pipeline_completes_witness :
    Event.distribute_dofs [3, 60, 2, 2, 50, 0, 2, 10, 2, 20, 1, 30, 4, 40, 2, 2] 2
      ∈ (Step3.main (sampleLibrary 7 4 0) ["step-3", "2", "1", "2"]).trace ∧
    Event.pcout " success...."
      ∉ (Step3.main (sampleLibrary 7 4 0) ["step-3", "2", "1", "2"]).trace ∧
    (∀ t f a b, Event.write_mesh_tria t f a b
      ∉ (Step3.main (sampleLibrary 7 4 0) ["step-3", "2", "1", "2"]).trace) ∧
    (∀ t f a b, Event.write_mesh_pft t f a b
      ∉ (Step3.main (sampleLibrary 7 4 0) ["step-3", "2", "1", "2"]).trace) :=
  ⟨by decide,
   (C9_success_iff_pipeline_completes (sampleLibrary 7 4 0) "step-3" "2" "1" "2" []).1.2.2.1
     [3, 60, 2, 2, 50, 0, 2, 10, 2, 20, 1, 30, 4, 40, 2, 2] 2 (.other "distribute_dofs")
     (by decide) rfl⟩

/-- C10, the code at dimension 1: step-3 runs the pipeline `test<1>` and logs
success, it does not raise the "Only working for dimensions 2 and 3!"
exception; step-8 on the same arguments raises it and logs the failure. -/
theorem C10_step3_runs_dimension_one :
    Event.subdivided_hyper_cube [0, 1] 2
      ∈ (Step3.main (sampleLibrary 0 4 0) ["step-3", "1", "1", "2"]).trace ∧
    Event.raised (.ExcMessage "Only working for dimensions 2 and 3!")
      ∉ (Step3.main (sampleLibrary 0 4 0) ["step-3", "1", "1", "2"]).trace ∧
    stdout (sampleLibrary 0 4 0) (Step3.main (sampleLibrary 0 4 0)
        ["step-3", "1", "1", "2"]).trace = "Run step-3: p= 4 d= 1 r= 1 s= 2: success....\n" ∧
    (Step8.main (sampleLibrary 0 4 0) ["step-8", "1", "1", "2"]).trace =
      (header "Run step-8: " 4 1 1 2).map Event.pcout ++
        [Event.raised (.ExcMessage "Only working for dimensions 2 and 3!"),
         Event.pcout " failed....", Event.pcout endl] ∧
    stdout (sampleLibrary 0 4 0) (Step8.main (sampleLibrary 0 4 0)
        ["step-8", "1", "1", "2"]).trace = "Run step-8:  p= 4 d= 1 r= 1 s= 2: failed....\n" := by
  exact ⟨by decide, by decide, by decide, by decide, by decide⟩

end DriverClaims

/-! ## The extractor and the builder: cross-rank identity and halo sufficiency -/

namespace Core

theorem sampleMesh_wellFormed : sampleMesh.WellFormed := by
  unfold GlobalMesh.WellFormed
  decide

theorem sampleMesh_validPartition : ValidPartition sampleMesh 2 := by
  refine ⟨sampleMesh_wellFormed, by decide, ?_⟩
  intro R hR
  interval_cases R <;> decide

/-- C7 (on the extractor and the builder modelled from the spec): for any two
ranks and every cell visible to both, that is a cell of the mesh built by
`reinit` on the output of `copy_from_triangulation` on each of them under the
same stable index, the two reconstructions agree on the geometric
description (shape), on the vertex coordinates in the order of the cell's
connectivity (every local index resolved through the vertex table of its own
rank, none unresolved), on level, owner and parent, on the parent chain up to
the coarsest level, and on adjacency to every other cell visible to both. -/
theorem C7_cross_rank_identity (m : GlobalMesh) (n R1 R2 : Nat) (hwf : m.WellFormed)
    (cd1 cd2 : ConstructionData) (lm1 lm2 : LocalMesh)
    (hx1 : copy_from_triangulation m n R1 = .ok cd1) (hb1 : reinit cd1 R1 = .ok lm1)
    (hx2 : copy_from_triangulation m n R2 = .ok cd2) (hb2 : reinit cd2 R2 = .ok lm2)
    (c1 c2 : LocalCell) (h1 : c1 ∈ lm1.cells) (h2 : c2 ∈ lm2.cells)
    (hidx : c1.index = c2.index) :
    c1.shape = c2.shape ∧
    lm1.coordinates c1 = lm2.coordinates c2 ∧
    none ∉ lm1.coordinates c1 ∧
    c1.vertices.length = c2.vertices.length ∧
    c1.level = c2.level ∧ c1.owner = c2.owner ∧ c1.parent = c2.parent ∧
    lm1.parentChain c1 = lm2.parentChain c2 ∧
    (lm1.parentChain c1).length = c1.level ∧
    (∀ d1 ∈ lm1.cells, ∀ d2 ∈ lm2.cells, d1.index = d2.index →
      (d1.index ∈ c1.neighbors ↔ d2.index ∈ c2.neighbors)) := by
  obtain ⟨_, _, hcl1, rfl⟩ := copy_from_triangulation_ok hx1
  obtain ⟨_, _, hcl2, rfl⟩ := copy_from_triangulation_ok hx2
  obtain ⟨rfl, _⟩ := reinit_ok hb1
  obtain ⟨rfl, _⟩ := reinit_ok hb2
  obtain ⟨g1, hg1, rfl⟩ := mem_assemble_cells.1 h1
  obtain ⟨g2, hg2, rfl⟩ := mem_assemble_cells.1 h2
  have hg : g1 = g2 :=
    cell_eq_of_index hwf (collected_mem_cells hg1) (collected_mem_cells hg2) hidx
  subst hg
  refine ⟨rfl, ?_, ?_, ?_, rfl, rfl, rfl, ?_, ?_, ?_⟩
  · rw [coordinates_localOf hg1, coordinates_localOf hg2]
  · rw [coordinates_localOf hg1]
    simp
  · simp [localOf_vertices]
  · simp only [LocalMesh.parentChain, localOf_level]
    rw [ancestors_localOf hwf hcl1 _ _ hg1, ancestors_localOf hwf hcl2 _ _ hg2]
  · simp only [LocalMesh.parentChain, localOf_level]
    rw [ancestors_localOf hwf hcl1 _ _ hg1]
    exact ancestors_length hwf _ _ (collected_mem_cells hg1) rfl
  · intro d1 hd1 d2 hd2 hd
    obtain ⟨e1, he1, rfl⟩ := mem_assemble_cells.1 hd1
    obtain ⟨e2, he2, rfl⟩ := mem_assemble_cells.1 hd2
    have he : e1 = e2 :=
      cell_eq_of_index hwf (collected_mem_cells he1) (collected_mem_cells he2) hd
    subst he
    rw [mem_neighbors_localOf hg1, mem_neighbors_localOf hg2]
    simp only [localOf_index]
    constructor
    · rintro ⟨gd, hgd, hi, hl, hne, hsh⟩
      have : gd = e1 :=
        cell_eq_of_index hwf (collected_mem_cells hgd) (collected_mem_cells he1) hi
      subst this
      exact ⟨gd, he2, rfl, hl, hne, hsh⟩
    · rintro ⟨gd, hgd, hi, hl, hne, hsh⟩
      have : gd = e1 :=
        cell_eq_of_index hwf (collected_mem_cells hgd) (collected_mem_cells he1) hi
      subst this
      exact ⟨gd, he1, rfl, hl, hne, hsh⟩

/-- C7, on the sample mesh: the fine cell of stable index 5 is owned by rank 0
and a ghost on rank 1; both ranks reconstruct the coordinates 4 and 6 and the
parent chain `[1]` for it, through different local vertex indices. -/
theorem C7_cross_rank_identity_witness :
    (localOf sampleMesh 0 ⟨5, 1, [1, 5], 0, 1, some 1⟩).tag = Tag.owned ∧
    (localOf sampleMesh 1 ⟨5, 1, [1, 5], 0, 1, some 1⟩).tag = Tag.ghost ∧
    (localOf sampleMesh 0 ⟨5, 1, [1, 5], 0, 1, some 1⟩).vertices = [3, 1] ∧
    (localOf sampleMesh 1 ⟨5, 1, [1, 5], 0, 1, some 1⟩).vertices = [2, 0] ∧
    (assemble (constructionData sampleMesh 0) 0).coordinates
        (localOf sampleMesh 0 ⟨5, 1, [1, 5], 0, 1, some 1⟩) = [some [4], some [6]] ∧
    (assemble (constructionData sampleMesh 0) 0).coordinates
        (localOf sampleMesh 0 ⟨5, 1, [1, 5], 0, 1, some 1⟩) =
      (assemble (constructionData sampleMesh 1) 1).coordinates
        (localOf sampleMesh 1 ⟨5, 1, [1, 5], 0, 1, some 1⟩) ∧
    (assemble (constructionData sampleMesh 0) 0).parentChain
        (localOf sampleMesh 0 ⟨5, 1, [1, 5], 0, 1, some 1⟩) =
      (assemble (constructionData sampleMesh 1) 1).parentChain
        (localOf sampleMesh 1 ⟨5, 1, [1, 5], 0, 1, some 1⟩) :=
  have h := C7_cross_rank_identity sampleMesh 2 0 1 sampleMesh_wellFormed
    (constructionData sampleMesh 0) (constructionData sampleMesh 1)
    (assemble (constructionData sampleMesh 0) 0) (assemble (constructionData sampleMesh 1) 1)
    rfl rfl rfl rfl
    (localOf sampleMesh 0 ⟨5, 1, [1, 5], 0, 1, some 1⟩)
    (localOf sampleMesh 1 ⟨5, 1, [1, 5], 0, 1, some 1⟩) (by decide) (by decide) rfl
  ⟨by decide, by decide, by decide, by decide, by decide, h.2.1, h.2.2.2.2.2.2.2.1⟩

/-- C8 (on the extractor, the builder and the DoF oracle modelled from the
spec): for every valid partition and every rank, extraction and build
succeed, every cell of the mesh that shares a vertex with a cell owned by the
rank on the same level is present in the rank's reconstructed mesh as owned
or ghost, and `distribute_dofs` with the degree-2 element completes without
error on the mesh built by `reinit`. -/
theorem C8_halo_sufficiency (m : GlobalMesh) (n : Nat) (hvalid : ValidPartition m n)
    (R : Nat) (hR : R < n) :
    ∃ cd lm, copy_from_triangulation m n R = .ok cd ∧ reinit cd R = .ok lm ∧
      (∀ c ∈ m.cells, c.owner = R → ∀ nb ∈ m.cells, nb.level = c.level →
        c.sharesVertex nb = true →
        ∃ l ∈ lm.cells, l.index = nb.index ∧ (l.tag = Tag.owned ∨ l.tag = Tag.ghost)) ∧
      distribute_dofs lm 2 = .ok () := by
  obtain ⟨hwf, hown, hne⟩ := hvalid
  obtain ⟨f, hf, hfl, hfo⟩ := hne R hR
  have hhalo := haloComplete_assemble hwf R
  refine ⟨constructionData m R, assemble (constructionData m R) R, ?_, ?_, ?_, ?_⟩
  · have h1 : (m.cells.all fun c => decide (c.owner < n)) = true := by
      simpa [List.all_eq_true] using hown
    have h2 : (ownedAt m R m.fineLevel).isEmpty = false := by
      have : f ∈ ownedAt m R m.fineLevel := by
        simp only [ownedAt, List.mem_filter, Bool.and_eq_true, beq_iff_eq]
        exact ⟨hf, hfl, hfo⟩
      cases hl : ownedAt m R m.fineLevel with
      | nil => rw [hl] at this; exact absurd this (by simp)
      | cons _ _ => rfl
    simp [copy_from_triangulation, h1, h2, ancestorClosed_collected hwf R]
  · simp [reinit, hhalo]
  · intro c hc hco nb hnb hl hsh
    have hcase : nb.owner = R ∨ inHalo m R nb = true := by
      by_cases ho : nb.owner = R
      · exact Or.inl ho
      · right
        simp only [inHalo, Bool.and_eq_true, bne_iff_ne, ne_eq, List.any_eq_true]
        refine ⟨ho, c, ?_, hsh⟩
        simp only [ownedAt, List.mem_filter, Bool.and_eq_true, beq_iff_eq]
        exact ⟨hc, hl.symm, hco⟩
    refine ⟨localOf m R nb,
      mem_assemble_cells.2 ⟨nb, collected_of_owned_or_halo hnb hcase, rfl⟩, rfl, ?_⟩
    rw [localOf_tag]
    unfold tagOf
    rcases hcase with ho | hh
    · left; simp [ho]
    · by_cases ho : nb.owner = R
      · left; simp [ho]
      · right; simp [ho, hh]
  · have hmem : localOf m R f ∈ (assemble (constructionData m R) R).cells :=
      mem_assemble_cells.2 ⟨f, collected_of_owned_or_halo hf (Or.inl hfo), rfl⟩
    have htag : (localOf m R f).tag = Tag.owned := by
      rw [localOf_tag]; unfold tagOf; simp [hfo]
    have h3 : ((assemble (constructionData m R) R).cells.filter
        fun c => c.tag == Tag.owned).isEmpty = false := by
      have : localOf m R f ∈ (assemble (constructionData m R) R).cells.filter
          fun c => c.tag == Tag.owned := by
        simp only [List.mem_filter, beq_iff_eq]
        exact ⟨hmem, htag⟩
      cases hl : (assemble (constructionData m R) R).cells.filter
          fun c => c.tag == Tag.owned with
      | nil => rw [hl] at this; exact absurd this (by simp)
      | cons _ _ => rfl
    simp [distribute_dofs, h3, hhalo]

/-- C8, on the sample mesh and rank 1: the fine cell of stable index 5, owned
by rank 0, shares a vertex with the cell of index 6 owned by rank 1 and is
present on rank 1. -/
theorem C8_halo_sufficiency_witness :
    ∃ cd lm, copy_from_triangulation sampleMesh 2 1 = .ok cd ∧ reinit cd 1 = .ok lm ∧
      (∃ l ∈ lm.cells, l.index = 5 ∧ (l.tag = Tag.owned ∨ l.tag = Tag.ghost)) ∧
      distribute_dofs lm 2 = .ok () := by
  obtain ⟨cd, lm, h1, h2, h3, h4⟩ :=
    C8_halo_sufficiency sampleMesh 2 sampleMesh_validPartition 1 (by decide)
  exact ⟨cd, lm, h1, h2,
    h3 ⟨6, 1, [5, 2], 1, 1, some 1⟩ (by decide) rfl ⟨5, 1, [1, 5], 0, 1, some 1⟩ (by decide)
      rfl (by decide), h4⟩

end Core

end DealiiPft
